import Mathlib

/-!
Verification of the ACO camera reference converter core
(`aco_camera_csv_converter/services.py`, `lib.py`, `models.py`).

Shallow embedding conventions:

* A polars `DataFrame` is a list of named columns; a column is a list of
  values.  Every column of a frame has one dtype, so column payloads are a
  sum of string columns, numeric columns and list-of-3-floats columns
  (the `converted` series of coordinate triples).
* Numeric cell values are modelled as exact rationals `ℚ`; the Python code
  computes with IEEE doubles, but every claim under test is about the
  algebraic formula or about data routing, not about rounding.
* Fallible operations return `Option`/`Except`.  A `none`/`.error` models a
  raised Python exception aborting the conversion run; the model therefore
  has no partial output on failure, exactly like the exception semantics.
* The external geodesy engine (`CSRSTransformer`) is out of scope per the
  spec: the pipeline is parameterised by an opaque batch transform
  `ext : List Triple → List Triple` together with the target coordinate
  type the configured transformer reports (`transformer.t_coords`).
* polars semantics used by the code and reproduced here:
  `with_columns` with a series whose length equals the frame height sets
  the column (replacing in place when the name exists, appending
  otherwise); a series of length 1 is broadcast to the frame height; any
  other length raises `ShapeError`.  `select` returns exactly the named
  columns in the given order and raises if one is missing.  `drop` raises
  if a named column is missing.  `str.replace_all(..., literal=True)`
  replaces every non-overlapping occurrence, left to right.
-/

namespace ACO

/-! ## Character-level utilities

The Python code manipulates coordinate strings with `str.split`,
`str.replace` and `float`.  These are modelled on `List Char`. -/

/-- The degree sign used as the DMS degrees delimiter. -/
def degreeChar : Char := '°'

/-- The single-quote character (minutes delimiter), by code point. -/
def minuteChar : Char := Char.ofNat 39

/-- The double-quote character (seconds suffix), by code point. -/
def quoteChar : Char := Char.ofNat 34

/-- Numeric value of a digit string, most significant digit first
(the usual positional fold used by decimal parsing). -/
def digitsVal (ds : List Char) : ℕ :=
  ds.foldl (fun n c => 10 * n + (c.toNat - 48)) 0

/-- Model of Python `float` on an unsigned decimal numeral: an optional
integer part, optionally followed by a dot and a fraction part, with at
least one digit overall.  (Exponents and special values are irrelevant to
the DMS strings under test; the model accepts a subset of what `float`
accepts and agrees with it there.) -/
def parseUnsigned (l : List Char) : Option ℚ :=
  match l.dropWhile Char.isDigit with
  | [] =>
    if (l.takeWhile Char.isDigit).isEmpty then none
    else some (digitsVal (l.takeWhile Char.isDigit) : ℚ)
  | '.' :: frac =>
    if frac.all Char.isDigit && !((l.takeWhile Char.isDigit).isEmpty && frac.isEmpty) then
      some ((digitsVal (l.takeWhile Char.isDigit) : ℚ)
        + (digitsVal frac : ℚ) / (10 : ℚ) ^ frac.length)
    else none
  | _ => none

/-- Model of Python `float` on a decimal numeral with an optional sign. -/
def parseFloatC (l : List Char) : Option ℚ :=
  match l with
  | '-' :: rest => (parseUnsigned rest).map (fun q => -q)
  | '+' :: rest => parseUnsigned rest
  | _ => parseUnsigned l

/-- Characters a numeral accepted by `parseFloatC` may contain. -/
def isFloatChar (c : Char) : Bool :=
  c.isDigit || c == '.' || c == '-' || c == '+'

/-- Splitter core for `str.split(sep)` with non-empty separator
`s0 :: st`: scan left to right, cut at each non-overlapping occurrence.
The `Nat` argument is structural fuel (one unit per character scanned),
which keeps the recursion structural so that the kernel can evaluate it;
`splitGo` below instantiates the fuel with the list length, which is
always sufficient. -/
def splitGoF (s0 : Char) (st : List Char) : Nat → List Char → List (List Char)
  | _, [] => [[]]
  | 0, l => [l]
  | fuel + 1, c :: rest =>
    if (s0 :: st).isPrefixOf (c :: rest) then
      [] :: splitGoF s0 st fuel (rest.drop st.length)
    else
      match splitGoF s0 st fuel rest with
      | [] => [[c]]
      | h :: t => (c :: h) :: t

/-- Split on a non-empty separator `s0 :: st`. -/
def splitGo (s0 : Char) (st : List Char) (l : List Char) : List (List Char) :=
  splitGoF s0 st l.length l

/-- Model of Python `str.split(sep)` (the `sep = []` case cannot occur in
the translated code; Python rejects an empty separator). -/
def splitOnSub (sep l : List Char) : List (List Char) :=
  match sep with
  | [] => [l]
  | s0 :: st => splitGo s0 st l

/-- Join a list of pieces with a separator: inverse of splitting. -/
def joinWith (sep : List Char) : List (List Char) → List Char
  | [] => []
  | [a] => a
  | a :: rest => a ++ sep ++ joinWith sep rest

/-- Model of polars `str.replace_all(sep, rep, literal=True)` (and of
Python `str.replace`): every non-overlapping occurrence of `sep` is
replaced by `rep`, left to right. -/
def replaceAllSub (sep rep l : List Char) : List Char :=
  joinWith rep (splitOnSub sep l)

/-- Modelled from the spec: §4.3 describes filename derivation as literal
substring replacement of the *first* occurrence only (Python
`str.replace(sep, rep, 1)`).  This definition follows the spec's words and
is compared against the code's `replaceAllSub`; it is not in the source. -/
def replaceFirstSub (sep rep : List Char) : List Char → List Char
  | [] => []
  | c :: rest =>
    if sep.isPrefixOf (c :: rest) then
      rep ++ (c :: rest).drop sep.length
    else
      c :: replaceFirstSub sep rep rest

/-- `l` contains `sep` as a contiguous substring. -/
def ContainsSub (sep l : List Char) : Prop :=
  ∃ a b, l = a ++ sep ++ b

/-- Stage of `dms_to_decimal`: `parts = dms_str[1:].replace('"', "").split("° ")`
followed by the uses of `parts[0]` and `parts[1]`.  Python indexing past
the end raises IndexError (`none`); parts beyond the second are ignored,
exactly as in the source. -/
def dmsSplit1 (cleaned : List Char) : Option (List Char × List Char) :=
  match splitOnSub [degreeChar, ' '] cleaned with
  | p0 :: p1 :: _ => some (p0, p1)
  | _ => none

/-- Stage of `dms_to_decimal`:
`minutes, seconds = map(float, parts[1].split("' "))` — the unpacking
requires the split to produce exactly two parts, and both must parse. -/
def dmsMinSec (p1 : List Char) : Option (ℚ × ℚ) :=
  match splitOnSub [minuteChar, ' '] p1 with
  | [mPart, sPart] =>
    (parseFloatC mPart).bind fun minutes =>
      (parseFloatC sPart).bind fun seconds => some (minutes, seconds)
  | _ => none

/-- Model of `dms_to_decimal` (services.py:20-28, lib.py:12-18):
take the first character as the hemisphere letter, strip every
double quote from the remainder, split on `"° "`, parse the degrees from
the first part, split the second part on `"' "` into exactly minutes and
seconds, and combine; the sign flips for S and W.  `none` models the
Python exceptions escaping (IndexError / ValueError), which abort the
run. -/
def dms_to_decimal (s : String) : Option ℚ :=
  match s.data with
  | [] => none
  | d :: rest =>
    let cleaned := rest.filter (fun c => c != quoteChar)
    (dmsSplit1 cleaned).bind fun p =>
      (parseFloatC p.1).bind fun degrees =>
        (dmsMinSec p.2).bind fun ms =>
          let dec := degrees + ms.1 / 60 + ms.2 / 3600
          some (if d = 'S' ∨ d = 'W' then -dec else dec)

/-- Build a DMS string of the documented shape
`<hemisphere><degrees>° <minutes>' <seconds>"`. -/
def mkDms (h : Char) (dS mS sS : List Char) : String :=
  ⟨h :: (dS ++ [degreeChar, ' '] ++ mS ++ [minuteChar, ' '] ++ sS ++ [quoteChar])⟩

/-! ## The tabular data model

A polars `DataFrame` is a list of named columns; all columns of a real
frame have the same length (polars enforces this at construction, so
theorems take it as a hypothesis where it matters). -/

/-- Payload of one column.  polars columns are homogeneously typed: the
code uses string columns (filenames, DMS text), Float64 columns (modelled
as `ℚ`) and the `converted` column of coordinate triples. -/
inductive ColData where
  | strs : List String → ColData
  | nums : List ℚ → ColData
  | triples : List (ℚ × ℚ × ℚ) → ColData
deriving DecidableEq

/-- A data frame: named columns in order. -/
abbrev DataFrame := List (String × ColData)

/-- The column names, in order (`df.columns`). -/
def columns (df : DataFrame) : List String :=
  df.map Prod.fst

/-- Look up a column by name (first match). -/
def getCol : DataFrame → String → Option ColData
  | [], _ => none
  | (m, c) :: rest, n => if m = n then some c else getCol rest n

/-- Python `name in df.columns`. -/
def hasCol (df : DataFrame) (n : String) : Bool :=
  (getCol df n).isSome

/-- Replace the payload of every column named `n` (positions kept). -/
def replaceCol (df : DataFrame) (n : String) (c : ColData) : DataFrame :=
  df.map (fun p => if p.1 = n then (n, c) else p)

/-- polars `with_columns` for a single column whose length matches the
frame: replace in place when the name exists, else append at the end. -/
def setCol (df : DataFrame) (n : String) (c : ColData) : DataFrame :=
  if hasCol df n then replaceCol df n c else df ++ [(n, c)]

/-- Number of rows stored in one column. -/
def colLen : ColData → Nat
  | .strs l => l.length
  | .nums l => l.length
  | .triples l => l.length

/-- Frame height (row count), read off the first column as every column
of a well-formed frame has the same length. -/
def height : DataFrame → Nat
  | [] => 0
  | (_, c) :: _ => colLen c

/-- polars `df.drop(ns...)`: fails (ColumnNotFoundError) when one of the
names is absent, otherwise removes those columns. -/
def dropCols (df : DataFrame) (ns : List String) : Option DataFrame :=
  if ns.all (hasCol df) then
    some (df.filter (fun p => !(ns.contains p.1)))
  else
    none

/-- polars `df.select(ns...)`: exactly the named columns in the given
order; fails (ColumnNotFoundError) when one is absent. -/
def selectCols (df : DataFrame) : List String → Option DataFrame
  | [] => some []
  | n :: rest =>
    match getCol df n, selectCols df rest with
    | some c, some out => some ((n, c) :: out)
    | _, _ => none

/-- polars `df.with_columns(series)` for the `converted` series of
triples (services.py:190-192): a series whose length equals the frame
height is added as a column; a length-1 series is broadcast to the frame
height; any other length raises ShapeError (`none`). -/
def withColumnSeries (df : DataFrame) (n : String) (ts : List (ℚ × ℚ × ℚ)) :
    Option DataFrame :=
  if ts.length = height df then
    some (setCol df n (.triples ts))
  else
    match ts with
    | [t] => some (setCol df n (.triples (List.replicate (height df) t)))
    | _ => none

/-- Column payload as a numeric list, when the column exists with that
dtype. -/
def getNums (df : DataFrame) (n : String) : Option (List ℚ) :=
  match getCol df n with
  | some (.nums l) => some l
  | _ => none

/-- Column payload as a list of triples, when the column exists with that
dtype. -/
def getTriples (df : DataFrame) (n : String) : Option (List (ℚ × ℚ × ℚ)) :=
  match getCol df n with
  | some (.triples l) => some l
  | _ => none

/-! ## Coordinate types and column names -/

/-- The detected input representation (`Literal["dms", "dd", "cart"]`). -/
inductive InputCoordType where
  | dms | dd | cart
deriving DecidableEq

/-- The target coordinate type reported by the configured transformer
(`csrspy.enums.CoordType`): geographic, cartesian, or a UTM zone.  The
Python code never validates this parameter (the annotation is not
enforced at runtime, and the repository's own tests drive the branch with
mock objects), so the model keeps an `other` tag for any value outside
the enum; the code's `else` branch treats every non-GEOG, non-CART value
as projected. -/
inductive CoordType where
  | GEOG | CART | UTM (zone : Nat) | other (tag : String)
deriving DecidableEq

/-- Column name of the latitude column. -/
def latCol : String := "Origin (Latitude[deg]"

/-- Column name of the longitude column. -/
def lonCol : String := "Longitude[deg]"

/-- Column name of the altitude column of geographic inputs. -/
def altCol : String := "Altitude[m])"

/-- Column name of the cartesian X column. -/
def xCol : String := "Origin (X[m]"

/-- Column name of the cartesian Y column. -/
def yCol : String := "Y[m]"

/-- Column name of the cartesian Z column. -/
def zCol : String := "Z[m])"

/-! ## The converter core -/

/-- Model of `detect_coord_type` (services.py:30-47, lib.py:144-155):
cartesian when the three cartesian columns are present; else DMS when the
latitude column exists, has string dtype and some value contains the
degree sign; else decimal degrees.  Total: no failure path. -/
def detect_coord_type (df : DataFrame) : InputCoordType :=
  if hasCol df xCol && hasCol df yCol && hasCol df zCol then
    .cart
  else if (match getCol df latCol with
           | some (.strs l) => l.any (fun s => s.data.contains degreeChar)
           | _ => false) then
    .dms
  else
    .dd

/-- The `.iiq` substring that filename derivation replaces. -/
def iiqSub : List Char := ".iiq".data

/-- Derived `RGBI_Filename` value (services.py:69-71):
`Filename.str.replace_all(".iiq", "_rgbi.tif", literal=True)`. -/
def deriveRGBI (fn : String) : String :=
  ⟨replaceAllSub iiqSub "_rgbi.tif".data fn.data⟩

/-- Derived `RGB_Filename` value (services.py:72-74):
`Filename.str.replace_all(".iiq", "_cal.tif", literal=True)`. -/
def deriveRGB (fn : String) : String :=
  ⟨replaceAllSub iiqSub "_cal.tif".data fn.data⟩

/-- Errors a conversion run can abort with.  Labels for the Python
exceptions: `parseError` for an exception escaping `dms_to_decimal`
inside `map_elements` (ValueError / IndexError / TypeError),
`missingColumn` for ColumnNotFoundError, `typeError` for applying a
string operation to a non-string column (SchemaError),
`emptyCoordinates` for the `CoordinateData` ValueError
"Coordinates list cannot be empty" (models.py:43-44), `shapeError` for
polars ShapeError while attaching the `converted` series. -/
inductive PipelineError where
  | parseError | missingColumn | typeError | emptyCoordinates | shapeError
deriving DecidableEq

/-- Apply `dms_to_decimal` element-wise
(`map_elements(dms_to_decimal, return_dtype=pl.Float64)`): the first
failing element aborts the whole column. -/
def mapElems (f : String → Option ℚ) : List String → Option (List ℚ)
  | [] => some []
  | a :: l =>
    match f a, mapElems f l with
    | some b, some bs => some (b :: bs)
    | _, _ => none

/-- Convert one DMS text column to Float64.  A non-string column makes
`dms_to_decimal` subscript a float, a TypeError (`none`). -/
def convertDmsCol : ColData → Option ColData
  | .strs l => (mapElems dms_to_decimal l).map .nums
  | _ => none

/-- Model of `preprocess_dataframe` (services.py:49-77): for DMS input
convert the latitude and longitude columns to decimal degrees, then add
the two derived filename columns from `Filename`. -/
def preprocess_dataframe (df : DataFrame) (ct : InputCoordType) :
    Except PipelineError DataFrame := do
  let df1 ←
    if ct = .dms then
      match getCol df latCol, getCol df lonCol with
      | some latC, some lonC =>
        match convertDmsCol latC, convertDmsCol lonC with
        | some latC', some lonC' =>
          pure (setCol (setCol df latCol latC') lonCol lonC')
        | _, _ => throw .parseError
      | _, _ => throw .missingColumn
    else
      pure df
  match getCol df1 "Filename" with
  | some (.strs fns) =>
    pure (setCol (setCol df1 "RGBI_Filename" (.strs (fns.map deriveRGBI)))
      "RGB_Filename" (.strs (fns.map deriveRGB)))
  | some _ => throw .typeError
  | none => throw .missingColumn

/-- Model of `extract_coordinates` (services.py:79-100): cartesian input
zips (X, Y, Z); any geographic input zips (longitude, latitude, altitude)
in the order the external transformer expects.  `zip` truncates to the
shortest list exactly like Python `zip`. -/
def extract_coordinates (df : DataFrame) (ct : InputCoordType) :
    Option (List (ℚ × ℚ × ℚ)) :=
  match ct with
  | .cart =>
    match getNums df xCol, getNums df yCol, getNums df zCol with
    | some xs, some ys, some zs => some (xs.zip (ys.zip zs))
    | _, _, _ => none
  | _ =>
    match getNums df lonCol, getNums df latCol, getNums df altCol with
    | some lons, some lats, some alts => some (lons.zip (lats.zip alts))
    | _, _, _ => none

/-- Output column schema when the target type is geographic
(services.py:208-220). -/
def geographicSchema : List String :=
  ["Timestamp", "Filename", latCol, lonCol, altCol,
   "Roll(X)[deg]", "Pitch(Y)[deg]", "Yaw(Z)[deg]",
   "Omega[deg]", "Phi[deg]", "Kappa[deg]"]

/-- Output column schema when the target type is cartesian
(services.py:226-239); note Omega/Phi/Kappa precede Roll/Pitch/Yaw. -/
def cartesianSchema : List String :=
  ["Timestamp", "RGBI_Filename", "RGB_Filename", xCol, yCol, zCol,
   "Omega[deg]", "Phi[deg]", "Kappa[deg]",
   "Roll(X)[deg]", "Pitch(Y)[deg]", "Yaw(Z)[deg]"]

/-- Output column schema of the `else` (projected) branch
(services.py:240-258). -/
def projectedSchema : List String :=
  ["Timestamp", "RGBI_Filename", "RGB_Filename",
   "Easting[m]", "Northing[m]", "Altitude[m]",
   "Omega[deg]", "Phi[deg]", "Kappa[deg]",
   "Roll(X)[deg]", "Pitch(Y)[deg]", "Yaw(Z)[deg]"]

/-- The schema each branch of `_apply_transformed_coordinates` selects:
geographic and cartesian have their own, everything else falls to the
projected branch. -/
def schemaFor : CoordType → List String
  | .GEOG => geographicSchema
  | .CART => cartesianSchema
  | _ => projectedSchema

/-- Model of `_apply_transformed_coordinates` (services.py:182-258):
attach the `converted` series (polars length rules), drop the original
coordinate columns of the input representation, add the target coordinate
columns from the components of `converted`, and select the fixed schema
of the target type. -/
def apply_transformed_coordinates (df : DataFrame) (coords : List (ℚ × ℚ × ℚ))
    (target : CoordType) (orig : InputCoordType) : Option DataFrame := do
  let df1 ← withColumnSeries df "converted" coords
  let df2 ← dropCols df1
    (if orig = .cart then [xCol, yCol, zCol] else [latCol, lonCol, altCol])
  let ts ← getTriples df2 "converted"
  match target with
  | .GEOG =>
    selectCols
      (setCol (setCol (setCol df2 latCol (.nums (ts.map (·.2.1))))
        lonCol (.nums (ts.map (·.1)))) altCol (.nums (ts.map (·.2.2))))
      geographicSchema
  | .CART =>
    selectCols
      (setCol (setCol (setCol df2 xCol (.nums (ts.map (·.1))))
        yCol (.nums (ts.map (·.2.1)))) zCol (.nums (ts.map (·.2.2))))
      cartesianSchema
  | _ =>
    selectCols
      (setCol (setCol (setCol df2 "Easting[m]" (.nums (ts.map (·.1))))
        "Northing[m]" (.nums (ts.map (·.2.1)))) "Altitude[m]"
        (.nums (ts.map (·.2.2))))
      projectedSchema

/-- Model of `TransformationService.transform_coordinates`
(services.py:116-180).  The external engine appears as the opaque batch
transform `ext` (the configured `CSRSTransformer` call) together with the
target coordinate type it reports (`transformer.t_coords`); grid-file
sync, logging and the inspection cache are side effects outside the data
path.  Steps, in source order: resolve the coordinate type (auto-detect
when not given), preprocess, return early when no transform is requested,
extract the coordinate triples, validate them via `CoordinateData`
(models.py:41-51: empty list raises ValueError), run the batch transform
once, and reshape. -/
def transform_coordinates (ext : List (ℚ × ℚ × ℚ) → List (ℚ × ℚ × ℚ))
    (target : CoordType) (df : DataFrame) (coordType : Option InputCoordType)
    (should_transform : Bool) : Except PipelineError DataFrame := do
  let ct := coordType.getD (detect_coord_type df)
  let processed ← preprocess_dataframe df ct
  if !should_transform then
    return processed
  let coords ←
    match extract_coordinates processed ct with
    | some c => pure c
    | none => throw .missingColumn
  if coords.isEmpty then
    throw .emptyCoordinates
  let transformed := ext coords
  match apply_transformed_coordinates processed transformed target ct with
  | some out => pure out
  | none => throw .shapeError

/-- A concrete preprocessed two-row cartesian frame used to instantiate
the reshape theorems: the required cartesian columns plus the two derived
filename columns. -/
def sampleCartFrame : DataFrame :=
  [("Timestamp", .strs ["t1", "t2"]),
   ("Filename", .strs ["img1.iiq", "img2.iiq"]),
   ("RGBI_Filename", .strs ["img1_rgbi.tif", "img2_rgbi.tif"]),
   ("RGB_Filename", .strs ["img1_cal.tif", "img2_cal.tif"]),
   (xCol, .nums [1, 2]), (yCol, .nums [3, 4]), (zCol, .nums [5, 6]),
   ("Roll(X)[deg]", .nums [0, 0]), ("Pitch(Y)[deg]", .nums [0, 0]),
   ("Yaw(Z)[deg]", .nums [0, 0]), ("Omega[deg]", .nums [0, 0]),
   ("Phi[deg]", .nums [0, 0]), ("Kappa[deg]", .nums [0, 0])]

/-! ## Lemmas: splitting and joining -/

theorem splitGoF_congr (s0 : Char) (st : List Char) :
    ∀ f₁ f₂ l, l.length ≤ f₁ → l.length ≤ f₂ →
      splitGoF s0 st f₁ l = splitGoF s0 st f₂ l := by
  intro f₁
  induction f₁ with
  | zero =>
    intro f₂ l h₁ _
    have : l = [] := List.length_eq_zero.mp (Nat.le_zero.mp h₁)
    subst this
    cases f₂ <;> rfl
  | succ f ih =>
    intro f₂ l h₁ h₂
    cases l with
    | nil => cases f₂ <;> rfl
    | cons c rest =>
      cases f₂ with
      | zero => simp at h₂
      | succ f₂' =>
        show (if (s0 :: st).isPrefixOf (c :: rest) then
            [] :: splitGoF s0 st f (rest.drop st.length)
          else match splitGoF s0 st f rest with
            | [] => [[c]]
            | h :: t => (c :: h) :: t) =
          (if (s0 :: st).isPrefixOf (c :: rest) then
            [] :: splitGoF s0 st f₂' (rest.drop st.length)
          else match splitGoF s0 st f₂' rest with
            | [] => [[c]]
            | h :: t => (c :: h) :: t)
        simp only [List.length_cons] at h₁ h₂
        by_cases hp : (s0 :: st).isPrefixOf (c :: rest)
        · rw [if_pos hp, if_pos hp,
            ih f₂' (rest.drop st.length)
              (by simp only [List.length_drop]; omega)
              (by simp only [List.length_drop]; omega)]
        · rw [if_neg hp, if_neg hp, ih f₂' rest (by omega) (by omega)]

theorem splitGo_nil (s0 : Char) (st : List Char) : splitGo s0 st [] = [[]] := rfl

theorem splitGo_cons (s0 : Char) (st : List Char) (c : Char) (rest : List Char) :
    splitGo s0 st (c :: rest) =
      if (s0 :: st).isPrefixOf (c :: rest) then
        [] :: splitGo s0 st (rest.drop st.length)
      else
        match splitGo s0 st rest with
        | [] => [[c]]
        | h :: t => (c :: h) :: t := by
  show (if (s0 :: st).isPrefixOf (c :: rest) then
      [] :: splitGoF s0 st rest.length (rest.drop st.length)
    else match splitGoF s0 st rest.length rest with
      | [] => [[c]]
      | h :: t => (c :: h) :: t) = _
  rw [splitGoF_congr s0 st rest.length (rest.drop st.length).length
      (rest.drop st.length) (by simp) le_rfl]
  rfl

theorem isPrefixOf_self_append (l b : List Char) : l.isPrefixOf (l ++ b) = true := by
  induction l with
  | nil => cases b <;> rfl
  | cons c rest ih => simp [List.isPrefixOf, ih]

theorem eq_append_drop_of_isPrefixOf :
    ∀ l m : List Char, l.isPrefixOf m = true → m = l ++ m.drop l.length := by
  intro l
  induction l with
  | nil => intro m _; rfl
  | cons c rest ih =>
    intro m hm
    cases m with
    | nil => simp [List.isPrefixOf] at hm
    | cons d dm =>
      simp only [List.isPrefixOf, Bool.and_eq_true, beq_iff_eq] at hm
      obtain ⟨rfl, h2⟩ := hm
      simpa using ih dm h2

theorem isPrefixOf_cons_of_ne (s0 c : Char) (st rest : List Char) (h : c ≠ s0) :
    (s0 :: st).isPrefixOf (c :: rest) = false := by
  simp only [List.isPrefixOf, Bool.and_eq_false_iff]
  left
  simpa [beq_iff_eq] using fun he => h he.symm

theorem splitGo_of_ne (s0 : Char) (st : List Char) :
    ∀ l : List Char, (∀ c ∈ l, c ≠ s0) → splitGo s0 st l = [l] := by
  intro l
  induction l with
  | nil => intro _; rfl
  | cons c rest ih =>
    intro h
    rw [splitGo_cons,
      if_neg (by simp [isPrefixOf_cons_of_ne s0 c st rest (h c (by simp))]),
      ih (fun c hc => h c (by simp [hc]))]

theorem splitGo_append_sep (s0 : Char) (st b : List Char) :
    ∀ a : List Char, (∀ c ∈ a, c ≠ s0) →
      splitGo s0 st (a ++ s0 :: (st ++ b)) = a :: splitGo s0 st b := by
  intro a
  induction a with
  | nil =>
    intro _
    rw [List.nil_append, splitGo_cons,
      if_pos (show (s0 :: st).isPrefixOf (s0 :: (st ++ b)) = true from
        isPrefixOf_self_append (s0 :: st) b)]
    rw [List.drop_left]
  | cons x a' ih =>
    intro h
    rw [List.cons_append, splitGo_cons,
      if_neg (by simp [isPrefixOf_cons_of_ne s0 x st _ (h x (by simp))]),
      ih (fun c hc => h c (by simp [hc]))]

theorem splitGoF_ne_nil (s0 : Char) (st : List Char) :
    ∀ f l, splitGoF s0 st f l ≠ [] := by
  intro f l
  cases f with
  | zero => cases l <;> simp [splitGoF]
  | succ f =>
    cases l with
    | nil => simp [splitGoF]
    | cons c rest =>
      show (if (s0 :: st).isPrefixOf (c :: rest) then
          [] :: splitGoF s0 st f (rest.drop st.length)
        else match splitGoF s0 st f rest with
          | [] => [[c]]
          | h :: t => (c :: h) :: t) ≠ []
      by_cases hp : (s0 :: st).isPrefixOf (c :: rest)
      · simp [hp]
      · rw [if_neg hp]
        cases splitGoF s0 st f rest <;> simp

theorem splitGo_ne_nil (s0 : Char) (st l : List Char) : splitGo s0 st l ≠ [] :=
  splitGoF_ne_nil s0 st l.length l

theorem joinWith_cons_cons (sep : List Char) (c : Char) (h : List Char)
    (t : List (List Char)) :
    joinWith sep ((c :: h) :: t) = c :: joinWith sep (h :: t) := by
  cases t <;> simp [joinWith]

theorem joinWith_splitGo (s0 : Char) (st : List Char) :
    ∀ f l, l.length ≤ f → joinWith (s0 :: st) (splitGoF s0 st f l) = l := by
  intro f
  induction f with
  | zero =>
    intro l h
    have : l = [] := List.length_eq_zero.mp (Nat.le_zero.mp h)
    subst this
    rfl
  | succ f ih =>
    intro l h
    cases l with
    | nil => rfl
    | cons c rest =>
      show joinWith (s0 :: st)
        (if (s0 :: st).isPrefixOf (c :: rest) then
          [] :: splitGoF s0 st f (rest.drop st.length)
        else match splitGoF s0 st f rest with
          | [] => [[c]]
          | h :: t => (c :: h) :: t) = c :: rest
      by_cases hp : (s0 :: st).isPrefixOf (c :: rest)
      · rw [if_pos hp]
        obtain ⟨p, t, hpt⟩ : ∃ p t, splitGoF s0 st f (rest.drop st.length) = p :: t := by
          cases hsp : splitGoF s0 st f (rest.drop st.length) with
          | nil => exact absurd hsp (splitGoF_ne_nil s0 st f _)
          | cons p t => exact ⟨p, t, rfl⟩
        rw [hpt]
        have hdrop : joinWith (s0 :: st) (p :: t) = rest.drop st.length := by
          rw [← hpt]
          exact ih (rest.drop st.length) (by simp at h ⊢; omega)
        have hdecomp := eq_append_drop_of_isPrefixOf (s0 :: st) (c :: rest) hp
        calc joinWith (s0 :: st) ([] :: p :: t)
            = (s0 :: st) ++ joinWith (s0 :: st) (p :: t) := by simp [joinWith]
          _ = (s0 :: st) ++ rest.drop st.length := by rw [hdrop]
          _ = c :: rest := by
              conv_rhs => rw [hdecomp]
              simp
      · rw [if_neg hp]
        obtain ⟨p, t, hpt⟩ : ∃ p t, splitGoF s0 st f rest = p :: t := by
          cases hsp : splitGoF s0 st f rest with
          | nil => exact absurd hsp (splitGoF_ne_nil s0 st f _)
          | cons p t => exact ⟨p, t, rfl⟩
        rw [hpt, joinWith_cons_cons, ← hpt, ih rest (by simpa using h)]

theorem joinWith_splitGo_eq (s0 : Char) (st l : List Char) :
    joinWith (s0 :: st) (splitGo s0 st l) = l :=
  joinWith_splitGo s0 st l.length l le_rfl

theorem replaceFirst_of_le_two (s0 : Char) (st rep : List Char) :
    ∀ f l, l.length ≤ f → (splitGoF s0 st f l).length ≤ 2 →
      joinWith rep (splitGoF s0 st f l) = replaceFirstSub (s0 :: st) rep l := by
  intro f
  induction f with
  | zero =>
    intro l h _
    have : l = [] := List.length_eq_zero.mp (Nat.le_zero.mp h)
    subst this
    rfl
  | succ f ih =>
    intro l h hlen
    cases l with
    | nil => rfl
    | cons c rest =>
      have hstep : splitGoF s0 st (f + 1) (c :: rest) =
          (if (s0 :: st).isPrefixOf (c :: rest) then
            [] :: splitGoF s0 st f (rest.drop st.length)
          else match splitGoF s0 st f rest with
            | [] => [[c]]
            | h :: t => (c :: h) :: t) := rfl
      by_cases hp : (s0 :: st).isPrefixOf (c :: rest)
      · rw [hstep, if_pos hp] at hlen ⊢
        obtain ⟨p, t, hpt⟩ : ∃ p t, splitGoF s0 st f (rest.drop st.length) = p :: t := by
          cases hsp : splitGoF s0 st f (rest.drop st.length) with
          | nil => exact absurd hsp (splitGoF_ne_nil s0 st f _)
          | cons p t => exact ⟨p, t, rfl⟩
        have ht : t = [] := by
          rw [hpt] at hlen
          simp only [List.length_cons] at hlen
          exact List.length_eq_zero.mp (by omega)
        subst ht
        have hjoin : joinWith (s0 :: st) (splitGoF s0 st f (rest.drop st.length)) =
            rest.drop st.length :=
          joinWith_splitGo s0 st f (rest.drop st.length)
            (by
              simp only [List.length_drop]
              simp only [List.length_cons] at h
              omega)
        rw [hpt] at hjoin
        rw [hpt]
        show joinWith rep ([] :: [p]) = replaceFirstSub (s0 :: st) rep (c :: rest)
        rw [replaceFirstSub, if_pos hp]
        simp only [joinWith] at hjoin ⊢
        simp [hjoin]
      · rw [hstep, if_neg hp] at hlen ⊢
        obtain ⟨p, t, hpt⟩ : ∃ p t, splitGoF s0 st f rest = p :: t := by
          cases hsp : splitGoF s0 st f rest with
          | nil => exact absurd hsp (splitGoF_ne_nil s0 st f _)
          | cons p t => exact ⟨p, t, rfl⟩
        rw [hpt] at hlen ⊢
        rw [joinWith_cons_cons, ← hpt,
          ih rest (by simpa using h) (by rw [hpt]; simpa using hlen),
          replaceFirstSub, if_neg hp]

theorem replaceAll_eq_replaceFirst (s0 : Char) (st rep l : List Char)
    (h : (splitGo s0 st l).length ≤ 2) :
    replaceAllSub (s0 :: st) rep l = replaceFirstSub (s0 :: st) rep l :=
  replaceFirst_of_le_two s0 st rep l.length l le_rfl h

theorem not_containsSub_of_splitGo_cons (s0 : Char) (st : List Char) :
    ∀ l : List Char, ¬ ContainsSub (s0 :: st) l → splitGo s0 st l = [l] := by
  intro l
  induction l with
  | nil => intro _; rfl
  | cons c rest ih =>
    intro h
    rw [splitGo_cons]
    rw [if_neg (fun hp => h ⟨[], (c :: rest).drop (s0 :: st).length, by
      simpa using eq_append_drop_of_isPrefixOf _ _ hp⟩)]
    rw [ih (fun ⟨a, b, hab⟩ => h ⟨c :: a, b, by simp [hab]⟩)]

/-! ## Lemmas: numeral parsing -/

theorem mem_takeWhile_pred (p : Char → Bool) :
    ∀ (l : List Char) (c : Char), c ∈ l.takeWhile p → p c = true := by
  intro l
  induction l with
  | nil => intro c hc; simp [List.takeWhile] at hc
  | cons a l' ih =>
    intro c hc
    rw [List.takeWhile_cons] at hc
    by_cases hpa : p a
    · rw [if_pos hpa] at hc
      rcases List.mem_cons.mp hc with rfl | hc'
      · exact hpa
      · exact ih c hc'
    · rw [if_neg hpa] at hc
      simp at hc

theorem parseUnsigned_chars (l : List Char) (q : ℚ)
    (h : parseUnsigned l = some q) : ∀ c ∈ l, c.isDigit = true ∨ c = '.' := by
  intro c hc
  rw [← List.takeWhile_append_dropWhile (p := Char.isDigit) (l := l)] at hc
  unfold parseUnsigned at h
  split at h
  · rename_i heq
    rw [heq, List.append_nil] at hc
    exact Or.inl (mem_takeWhile_pred Char.isDigit l c hc)
  · rename_i frac heq
    have hcond : (frac.all Char.isDigit && !((l.takeWhile Char.isDigit).isEmpty
        && frac.isEmpty)) = true := by
      by_cases hb : (frac.all Char.isDigit && !((l.takeWhile Char.isDigit).isEmpty
          && frac.isEmpty)) = true
      · exact hb
      · rw [if_neg hb] at h; cases h
    have hfrac : ∀ c ∈ frac, c.isDigit = true :=
      List.all_eq_true.mp ((Bool.and_eq_true _ _).mp hcond).1
    rw [heq] at hc
    rcases List.mem_append.mp hc with hc' | hc'
    · exact Or.inl (mem_takeWhile_pred Char.isDigit l c hc')
    · rcases List.mem_cons.mp hc' with rfl | hc''
      · exact Or.inr rfl
      · exact Or.inl (hfrac c hc'')
  · cases h

theorem parseFloatC_chars (l : List Char) (q : ℚ)
    (h : parseFloatC l = some q) : ∀ c ∈ l, isFloatChar c = true := by
  intro c hc
  have base : ∀ (l' : List Char) (q' : ℚ), parseUnsigned l' = some q' →
      ∀ c' ∈ l', isFloatChar c' = true := by
    intro l' q' h' c' hc'
    rcases parseUnsigned_chars l' q' h' c' hc' with hd | rfl
    · simp [isFloatChar, hd]
    · simp [isFloatChar]
  unfold parseFloatC at h
  split at h
  · rename_i rest
    rcases List.mem_cons.mp hc with rfl | hc'
    · simp [isFloatChar]
    · rcases Option.map_eq_some'.mp h with ⟨q', hq', _⟩
      exact base rest q' hq' c hc'
  · rename_i rest
    rcases List.mem_cons.mp hc with rfl | hc'
    · simp [isFloatChar]
    · exact base rest q h c hc'
  · exact base l q h c hc

theorem floatChar_ne_delims (c : Char) (h : isFloatChar c = true) :
    c ≠ degreeChar ∧ c ≠ minuteChar ∧ c ≠ quoteChar := by
  refine ⟨fun he => ?_, fun he => ?_, fun he => ?_⟩ <;>
    (subst he; exact absurd h (by decide))

/-! ## Lemmas: DMS conversion -/

theorem dms_to_decimal_cons (d : Char) (rest : List Char) :
    dms_to_decimal ⟨d :: rest⟩ =
      (dmsSplit1 (rest.filter (fun c => c != quoteChar))).bind fun p =>
        (parseFloatC p.1).bind fun degrees =>
          (dmsMinSec p.2).bind fun ms =>
            some (if d = 'S' ∨ d = 'W' then -(degrees + ms.1 / 60 + ms.2 / 3600)
              else degrees + ms.1 / 60 + ms.2 / 3600) := rfl

theorem mapElems_eq_none (f : String → Option ℚ) :
    ∀ l : List String, (∃ x ∈ l, f x = none) → mapElems f l = none := by
  intro l
  induction l with
  | nil => rintro ⟨x, hx, _⟩; cases hx
  | cons a l' ih =>
    rintro ⟨x, hx, hfx⟩
    rcases List.mem_cons.mp hx with rfl | hx'
    · unfold mapElems
      rw [hfx]
    · unfold mapElems
      rw [ih ⟨x, hx', hfx⟩]
      cases f a <;> rfl

theorem mapElems_eq_map (f : String → Option ℚ) :
    ∀ (l : List String) (l' : List ℚ), mapElems f l = some l' →
      l'.length = l.length ∧
        ∀ (i : Nat) (q : ℚ), l'[i]? = some q → (l[i]?.bind f) = some q := by
  intro l
  induction l with
  | nil =>
    intro l' h
    cases h
    exact ⟨rfl, fun i q hq => by simp at hq⟩
  | cons a t ih =>
    intro l' h
    unfold mapElems at h
    cases hfa : f a with
    | none => rw [hfa] at h; cases h
    | some b =>
      rw [hfa] at h
      cases hmt : mapElems f t with
      | none => rw [hmt] at h; cases h
      | some bs =>
        rw [hmt] at h
        cases h
        obtain ⟨hlen, hidx⟩ := ih bs hmt
        refine ⟨by simp [hlen], fun i q hq => ?_⟩
        cases i with
        | zero =>
          simp at hq
          subst hq
          simpa using hfa
        | succ j =>
          simp at hq ⊢
          have := hidx j q (by simpa using hq)
          simpa using this

/-! ## Lemmas: frame operations -/

theorem exceptBind_ok {e a b : Type} (x : a) (f : a → Except e b) :
    (Except.ok x : Except e a) >>= f = f x := rfl

theorem exceptBind_error {e a b : Type} (err : e) (f : a → Except e b) :
    (Except.error err : Except e a) >>= f = Except.error err := rfl

theorem getCol_replaceCol_ne (n m : String) (c : ColData) (hm : m ≠ n) :
    ∀ df : DataFrame, getCol (replaceCol df n c) m = getCol df m := by
  intro df
  induction df with
  | nil => rfl
  | cons p rest ih =>
    obtain ⟨a, b⟩ := p
    show getCol ((if a = n then (n, c) else (a, b)) :: replaceCol rest n c) m =
      (if a = m then some b else getCol rest m)
    by_cases ha : a = n
    · rw [if_pos ha]
      show (if n = m then some c else getCol (replaceCol rest n c) m) = _
      rw [if_neg (fun hnm => hm hnm.symm), ih,
        if_neg (fun ham => hm (ham.symm.trans ha))]
    · rw [if_neg ha]
      show (if a = m then some b else getCol (replaceCol rest n c) m) = _
      by_cases ham : a = m
      · rw [if_pos ham, if_pos ham]
      · rw [if_neg ham, if_neg ham, ih]

theorem getCol_replaceCol_self (n : String) (c : ColData) :
    ∀ df : DataFrame, hasCol df n = true →
      getCol (replaceCol df n c) n = some c := by
  intro df
  induction df with
  | nil => intro h; simp [hasCol, getCol] at h
  | cons p rest ih =>
    obtain ⟨a, b⟩ := p
    intro h
    show getCol ((if a = n then (n, c) else (a, b)) :: replaceCol rest n c) n = some c
    by_cases ha : a = n
    · rw [if_pos ha]
      show (if n = n then some c else getCol (replaceCol rest n c) n) = some c
      rw [if_pos rfl]
    · rw [if_neg ha]
      show (if a = n then some b else getCol (replaceCol rest n c) n) = some c
      rw [if_neg ha]
      apply ih
      have : getCol ((a, b) :: rest) n = getCol rest n := by
        show (if a = n then some b else getCol rest n) = _
        rw [if_neg ha]
      simpa [hasCol, this] using h

theorem getCol_append_single_self (n : String) (c : ColData) :
    ∀ df : DataFrame, getCol df n = none → getCol (df ++ [(n, c)]) n = some c := by
  intro df
  induction df with
  | nil => intro _; simp [getCol]
  | cons p rest ih =>
    obtain ⟨a, b⟩ := p
    intro h
    show (if a = n then some b else getCol (rest ++ [(n, c)]) n) = some c
    by_cases ha : a = n
    · exfalso
      have : getCol ((a, b) :: rest) n = some b := by
        show (if a = n then some b else getCol rest n) = some b
        rw [if_pos ha]
      rw [this] at h
      cases h
    · rw [if_neg ha]
      apply ih
      have : getCol ((a, b) :: rest) n = getCol rest n := by
        show (if a = n then some b else getCol rest n) = _
        rw [if_neg ha]
      rw [this] at h
      exact h

theorem getCol_append_single_ne (n m : String) (c : ColData) (hm : m ≠ n) :
    ∀ df : DataFrame, getCol (df ++ [(n, c)]) m = getCol df m := by
  intro df
  induction df with
  | nil =>
    show (if n = m then some c else getCol [] m) = getCol [] m
    rw [if_neg (fun h => hm h.symm)]
  | cons p rest ih =>
    obtain ⟨a, b⟩ := p
    show (if a = m then some b else getCol (rest ++ [(n, c)]) m) = _
    by_cases ha : a = m
    · rw [if_pos ha]
      show _ = (if a = m then some b else getCol rest m)
      rw [if_pos ha]
    · rw [if_neg ha, ih]
      show _ = (if a = m then some b else getCol rest m)
      rw [if_neg ha]

theorem getCol_setCol (df : DataFrame) (n m : String) (c : ColData) :
    getCol (setCol df n c) m = if m = n then some c else getCol df m := by
  unfold setCol
  by_cases hn : hasCol df n
  · rw [if_pos hn]
    by_cases hm : m = n
    · subst hm
      rw [if_pos rfl]
      exact getCol_replaceCol_self m c df hn
    · rw [if_neg hm]
      exact getCol_replaceCol_ne n m c hm df
  · rw [if_neg hn]
    by_cases hm : m = n
    · subst hm
      rw [if_pos rfl]
      exact getCol_append_single_self m c df
        (by simpa [hasCol, Option.isSome_iff_ne_none] using hn)
    · rw [if_neg hm]
      exact getCol_append_single_ne n m c hm df

theorem hasCol_setCol (df : DataFrame) (n m : String) (c : ColData) :
    hasCol (setCol df n c) m = (m == n || hasCol df m) := by
  unfold hasCol
  rw [getCol_setCol]
  by_cases hm : m = n
  · simp [hm]
  · simp [hm]

theorem columns_replaceCol (n : String) (c : ColData) :
    ∀ df : DataFrame, columns (replaceCol df n c) = columns df := by
  intro df
  induction df with
  | nil => rfl
  | cons p rest ih =>
    obtain ⟨a, b⟩ := p
    show columns ((if a = n then (n, c) else (a, b)) :: replaceCol rest n c) = _
    by_cases ha : a = n
    · rw [if_pos ha]
      show n :: columns (replaceCol rest n c) = a :: columns rest
      rw [ih, ha]
    · rw [if_neg ha]
      show a :: columns (replaceCol rest n c) = a :: columns rest
      rw [ih]

theorem columns_setCol_present (df : DataFrame) (n : String) (c : ColData)
    (hn : hasCol df n = true) : columns (setCol df n c) = columns df := by
  unfold setCol
  rw [if_pos hn]
  exact columns_replaceCol n c df

theorem columns_setCol_absent (df : DataFrame) (n : String) (c : ColData)
    (hn : hasCol df n = false) : columns (setCol df n c) = columns df ++ [n] := by
  unfold setCol
  rw [if_neg (by simp [hn])]
  simp [columns]

theorem hasCol_iff_mem_columns (n : String) :
    ∀ df : DataFrame, hasCol df n = true ↔ n ∈ columns df := by
  intro df
  induction df with
  | nil => simp [hasCol, getCol, columns]
  | cons p rest ih =>
    obtain ⟨a, b⟩ := p
    show ((if a = n then some b else getCol rest n).isSome = true) ↔ _
    by_cases ha : a = n
    · simp [ha, columns]
    · rw [if_neg ha]
      show hasCol rest n = true ↔ _
      simp only [columns, List.map_cons, List.mem_cons]
      rw [ih]
      constructor
      · intro h; exact Or.inr h
      · rintro (h | h)
        · exact absurd h.symm ha
        · exact h

theorem selectCols_of_hasCol (df : DataFrame) :
    ∀ ns : List String, (∀ n ∈ ns, hasCol df n = true) →
      ∃ out, selectCols df ns = some out ∧ columns out = ns := by
  intro ns
  induction ns with
  | nil => intro _; exact ⟨[], rfl, rfl⟩
  | cons n rest ih =>
    intro h
    obtain ⟨c, hc⟩ := Option.isSome_iff_exists.mp (h n (by simp))
    obtain ⟨out, hout, hcols⟩ := ih (fun m hm => h m (by simp [hm]))
    refine ⟨(n, c) :: out, ?_, ?_⟩
    · show (match getCol df n, selectCols df rest with
        | some c, some out => some ((n, c) :: out)
        | _, _ => none) = _
      rw [hc, hout]
    · show n :: columns out = n :: rest
      rw [hcols]

theorem getCol_filter_not_mem (ns : List String) (n : String)
    (hn : ns.contains n = false) :
    ∀ df : DataFrame,
      getCol (df.filter (fun p => !(ns.contains p.1))) n = getCol df n := by
  intro df
  induction df with
  | nil => rfl
  | cons p rest ih =>
    obtain ⟨a, b⟩ := p
    rw [List.filter_cons]
    by_cases ha : a = n
    · subst ha
      rw [if_pos (by simpa using hn)]
      show (if a = a then some b else getCol (List.filter _ rest) a) = _
      rw [if_pos rfl]
      show _ = (if a = a then some b else getCol rest a)
      rw [if_pos rfl]
    · have hrhs : getCol ((a, b) :: rest) n = getCol rest n := by
        show (if a = n then some b else getCol rest n) = _
        rw [if_neg ha]
      rw [hrhs]
      by_cases hk : (ns.contains a) = false
      · rw [if_pos (by simpa using hk)]
        show (if a = n then some b else getCol (List.filter _ rest) n) = _
        rw [if_neg ha, ih]
      · rw [if_neg (by simpa using hk)]
        exact ih

theorem hasCol_filter_not_mem (ns : List String) (n : String)
    (hn : ns.contains n = false) (df : DataFrame) :
    hasCol (df.filter (fun p => !(ns.contains p.1))) n = hasCol df n := by
  unfold hasCol
  rw [getCol_filter_not_mem ns n hn df]

theorem dropCols_of_hasCol (df : DataFrame) (ns : List String)
    (h : ∀ m ∈ ns, hasCol df m = true) :
    dropCols df ns = some (df.filter (fun p => !(ns.contains p.1))) := by
  unfold dropCols
  rw [if_pos (List.all_eq_true.mpr h)]

theorem withColumnSeries_of_length (df : DataFrame) (n : String)
    (ts : List (ℚ × ℚ × ℚ)) (h : ts.length = height df) :
    withColumnSeries df n ts = some (setCol df n (.triples ts)) := by
  unfold withColumnSeries
  rw [if_pos h]

theorem withColumnSeries_none (df : DataFrame) (n : String)
    (ts : List (ℚ × ℚ × ℚ)) (h1 : ts.length ≠ height df) (h2 : ts.length ≠ 1) :
    withColumnSeries df n ts = none := by
  unfold withColumnSeries
  rw [if_neg h1]
  match ts with
  | [] => rfl
  | [t] => exact absurd rfl h2
  | a :: b :: r => rfl

theorem optionBind_some {a b : Type} (x : a) (f : a → Option b) :
    (some x : Option a) >>= f = f x := rfl

theorem hasCol_setCol3 (df : DataFrame) (n1 n2 n3 : String)
    (c1 c2 c3 : ColData) (m : String)
    (hm : m = n1 ∨ m = n2 ∨ m = n3 ∨ hasCol df m = true) :
    hasCol (setCol (setCol (setCol df n1 c1) n2 c2) n3 c3) m = true := by
  rw [hasCol_setCol, hasCol_setCol, hasCol_setCol]
  rcases hm with rfl | rfl | rfl | h
  · simp
  · simp
  · simp
  · simp [h]

/-- Workhorse for `_apply_transformed_coordinates`: when the frame holds
the base columns of a preprocessed valid input plus the coordinate
columns of its representation, and the transformed list matches the
height, the reshape succeeds and the output columns are exactly the
schema of the target branch. -/
theorem apply_transformed_columns (df : DataFrame) (coords : List (ℚ × ℚ × ℚ))
    (target : CoordType) (orig : InputCoordType)
    (hbase : ∀ n ∈ ["Timestamp", "Filename", "RGBI_Filename", "RGB_Filename",
      "Roll(X)[deg]", "Pitch(Y)[deg]", "Yaw(Z)[deg]",
      "Omega[deg]", "Phi[deg]", "Kappa[deg]"], hasCol df n = true)
    (horig : ∀ n ∈ (if orig = .cart then [xCol, yCol, zCol]
      else [latCol, lonCol, altCol]), hasCol df n = true)
    (hlen : coords.length = height df) :
    ∃ out, apply_transformed_coordinates df coords target orig = some out ∧
      columns out = schemaFor target := by
  have h1 : withColumnSeries df "converted" coords =
      some (setCol df "converted" (ColData.triples coords)) :=
    withColumnSeries_of_length df "converted" coords hlen
  have hdropOK : ∀ m ∈ (if orig = .cart then [xCol, yCol, zCol]
      else [latCol, lonCol, altCol]),
      hasCol (setCol df "converted" (ColData.triples coords)) m = true := by
    intro m hm
    rw [hasCol_setCol]
    simp [horig m hm]
  have h2 : dropCols (setCol df "converted" (ColData.triples coords))
      (if orig = .cart then [xCol, yCol, zCol] else [latCol, lonCol, altCol]) =
      some ((setCol df "converted" (ColData.triples coords)).filter
        (fun p => !((if orig = .cart then [xCol, yCol, zCol]
          else [latCol, lonCol, altCol]).contains p.1))) :=
    dropCols_of_hasCol _ _ hdropOK
  have hconvnotdrop : ((if orig = .cart then [xCol, yCol, zCol]
      else [latCol, lonCol, altCol]).contains "converted") = false := by
    by_cases ho : orig = .cart
    · rw [if_pos ho]; decide
    · rw [if_neg ho]; decide
  have h3 : getTriples ((setCol df "converted" (ColData.triples coords)).filter
      (fun p => !((if orig = .cart then [xCol, yCol, zCol]
        else [latCol, lonCol, altCol]).contains p.1))) "converted" = some coords := by
    unfold getTriples
    rw [getCol_filter_not_mem _ _ hconvnotdrop, getCol_setCol, if_pos rfl]
  have hbase2 : ∀ n : String, hasCol df n = true →
      ([xCol, yCol, zCol].contains n) = false →
      ([latCol, lonCol, altCol].contains n) = false →
      hasCol ((setCol df "converted" (ColData.triples coords)).filter
        (fun p => !((if orig = .cart then [xCol, yCol, zCol]
          else [latCol, lonCol, altCol]).contains p.1))) n = true := by
    intro n hd hc1 hc2
    rw [hasCol_filter_not_mem _ _ (by
      by_cases ho : orig = .cart
      · rw [if_pos ho]; exact hc1
      · rw [if_neg ho]; exact hc2)]
    rw [hasCol_setCol]
    simp [hd]
  have hall : ∀ (n1 n2 n3 : String) (c1 c2 c3 : ColData) (m : String),
      (m = n1 ∨ m = n2 ∨ m = n3 ∨
        (m ∈ ["Timestamp", "Filename", "RGBI_Filename", "RGB_Filename",
          "Roll(X)[deg]", "Pitch(Y)[deg]", "Yaw(Z)[deg]",
          "Omega[deg]", "Phi[deg]", "Kappa[deg]"] ∧
         ([xCol, yCol, zCol].contains m) = false ∧
         ([latCol, lonCol, altCol].contains m) = false)) →
      hasCol (setCol (setCol (setCol
        ((setCol df "converted" (ColData.triples coords)).filter
          (fun p => !((if orig = .cart then [xCol, yCol, zCol]
            else [latCol, lonCol, altCol]).contains p.1))) n1 c1) n2 c2) n3 c3)
        m = true := by
    intro n1 n2 n3 c1 c2 c3 m hm
    apply hasCol_setCol3
    rcases hm with rfl | rfl | rfl | ⟨hmem, hc1, hc2⟩
    · exact Or.inl rfl
    · exact Or.inr (Or.inl rfl)
    · exact Or.inr (Or.inr (Or.inl rfl))
    · exact Or.inr (Or.inr (Or.inr (hbase2 m (hbase m hmem) hc1 hc2)))
  unfold apply_transformed_coordinates
  rw [h1, optionBind_some, h2, optionBind_some, h3, optionBind_some]
  cases target with
  | GEOG =>
    refine selectCols_of_hasCol _ geographicSchema ?_
    intro n hn
    simp only [geographicSchema, List.mem_cons, List.not_mem_nil, or_false] at hn
    rcases hn with rfl | rfl | rfl | rfl | rfl | rfl | rfl | rfl | rfl | rfl | rfl <;>
      exact hall latCol lonCol altCol _ _ _ _ (by decide)
  | CART =>
    refine selectCols_of_hasCol _ cartesianSchema ?_
    intro n hn
    simp only [cartesianSchema, List.mem_cons, List.not_mem_nil, or_false] at hn
    rcases hn with rfl | rfl | rfl | rfl | rfl | rfl | rfl | rfl | rfl | rfl | rfl | rfl <;>
      exact hall xCol yCol zCol _ _ _ _ (by decide)
  | UTM z =>
    refine selectCols_of_hasCol _ projectedSchema ?_
    intro n hn
    simp only [projectedSchema, List.mem_cons, List.not_mem_nil, or_false] at hn
    rcases hn with rfl | rfl | rfl | rfl | rfl | rfl | rfl | rfl | rfl | rfl | rfl | rfl <;>
      exact hall "Easting[m]" "Northing[m]" "Altitude[m]" _ _ _ _ (by decide)
  | other t =>
    refine selectCols_of_hasCol _ projectedSchema ?_
    intro n hn
    simp only [projectedSchema, List.mem_cons, List.not_mem_nil, or_false] at hn
    rcases hn with rfl | rfl | rfl | rfl | rfl | rfl | rfl | rfl | rfl | rfl | rfl | rfl <;>
      exact hall "Easting[m]" "Northing[m]" "Altitude[m]" _ _ _ _ (by decide)

/-! ## Claim C1 -/

/-- C1: for every frame holding the columns of a preprocessed valid
input (the base columns plus the coordinate columns of the detected
representation, dms, dd or cart) and a transformed coordinate list
matching the row count, the reshape output has exactly the fixed column
set and order of the target schema: the geographic schema for a
geographic target, the cartesian schema (with Omega/Phi/Kappa preceding
Roll/Pitch/Yaw) for a cartesian target, and the projected schema (with
Easting/Northing/Altitude coordinates) otherwise — whatever the input
representation. -/
theorem C1_output_schema_matches_target (df : DataFrame)
    (coords : List (ℚ × ℚ × ℚ)) (target : CoordType) (orig : InputCoordType)
    (hbase : ∀ n ∈ ["Timestamp", "Filename", "RGBI_Filename", "RGB_Filename",
      "Roll(X)[deg]", "Pitch(Y)[deg]", "Yaw(Z)[deg]",
      "Omega[deg]", "Phi[deg]", "Kappa[deg]"], hasCol df n = true)
    (horig : ∀ n ∈ (if orig = .cart then [xCol, yCol, zCol]
      else [latCol, lonCol, altCol]), hasCol df n = true)
    (hlen : coords.length = height df) :
    ∃ out, apply_transformed_coordinates df coords target orig = some out ∧
      columns out = schemaFor target :=
  apply_transformed_columns df coords target orig hbase horig hlen

/-- Witness for C1 on the sample cartesian frame with a cartesian
target: the output columns are exactly the cartesian schema. -/
theorem C1_output_schema_matches_target_witness :
    (apply_transformed_coordinates sampleCartFrame [(7, 8, 9), (10, 11, 12)]
      .CART .cart).map columns = some cartesianSchema := by
  obtain ⟨out, happ, hcols⟩ := C1_output_schema_matches_target sampleCartFrame
    [(7, 8, 9), (10, 11, 12)] .CART .cart
    (by intro n hn; fin_cases hn <;> decide)
    (by intro n hn; fin_cases hn <;> decide)
    (by decide)
  rw [happ]
  simp [hcols, schemaFor]

/-! ## Claim C3 -/

/-- C3 counterexample: one output triple for a two-row frame is not a
fatal error — polars broadcasts a length-1 series, so the reshape
succeeds and the single triple is padded to every row (the X column of
the output repeats the value 7). -/
theorem C3_unit_length_broadcast_cex :
    height sampleCartFrame = 2 ∧
    (apply_transformed_coordinates sampleCartFrame [(7, 8, 9)] .CART .cart).isSome
      = true ∧
    ((apply_transformed_coordinates sampleCartFrame [(7, 8, 9)] .CART .cart).bind
      (fun r => getCol r xCol)) = some (.nums [7, 7]) :=
  ⟨by decide, by decide, by decide⟩

/-- C3 amended: when the number of output triples differs from the input
row count the run fails with the polars shape error — except when exactly
one triple is returned, which polars broadcasts (pads) to every row
instead of failing. -/
theorem C3_shape_mismatch_fails_unless_unit (df : DataFrame)
    (coords : List (ℚ × ℚ × ℚ)) (target : CoordType) (orig : InputCoordType)
    (h1 : coords.length ≠ height df) (h2 : coords.length ≠ 1) :
    apply_transformed_coordinates df coords target orig = none := by
  unfold apply_transformed_coordinates
  rw [withColumnSeries_none df "converted" coords h1 h2]
  rfl

/-- Witness for C3 amended: three triples against a two-row frame abort
the reshape. -/
theorem C3_shape_mismatch_fails_unless_unit_witness :
    apply_transformed_coordinates sampleCartFrame [(7, 8, 9), (1, 1, 1), (2, 2, 2)]
      .CART .cart = none :=
  C3_shape_mismatch_fails_unless_unit sampleCartFrame
    [(7, 8, 9), (1, 1, 1), (2, 2, 2)] .CART .cart (by decide) (by decide)

/-! ## Claim C4 -/

/-- C4 counterexample: a target outside the known coordinate types does
not fail with a configuration error — the reshape succeeds and produces
output under the projected schema. -/
theorem C4_unknown_target_no_error_cex :
    (apply_transformed_coordinates sampleCartFrame [(7, 8, 9), (10, 11, 12)]
      (.other "NOT_A_COORD_TYPE") .cart).isSome = true ∧
    (apply_transformed_coordinates sampleCartFrame [(7, 8, 9), (10, 11, 12)]
      (.other "NOT_A_COORD_TYPE") .cart).map columns = some projectedSchema :=
  ⟨by decide, by decide⟩

/-- C4 amended: the code has no configuration-error path for the target
type: every target that is neither geographic nor cartesian — including
any value outside the known enum — is handled by the projected branch
and yields the projected schema.  (Within the actual csrspy enum every
member is geographic, cartesian or a UTM zone, so no run can fail on the
target type at all.) -/
theorem C4_non_geog_cart_target_takes_projected_branch (df : DataFrame)
    (coords : List (ℚ × ℚ × ℚ)) (orig : InputCoordType) (tag : String)
    (hbase : ∀ n ∈ ["Timestamp", "Filename", "RGBI_Filename", "RGB_Filename",
      "Roll(X)[deg]", "Pitch(Y)[deg]", "Yaw(Z)[deg]",
      "Omega[deg]", "Phi[deg]", "Kappa[deg]"], hasCol df n = true)
    (horig : ∀ n ∈ (if orig = .cart then [xCol, yCol, zCol]
      else [latCol, lonCol, altCol]), hasCol df n = true)
    (hlen : coords.length = height df) :
    ∃ out, apply_transformed_coordinates df coords (.other tag) orig = some out ∧
      columns out = projectedSchema :=
  apply_transformed_columns df coords (.other tag) orig hbase horig hlen

/-- Witness for C4 amended at a concrete unknown target tag. -/
theorem C4_non_geog_cart_target_takes_projected_branch_witness :
    (apply_transformed_coordinates sampleCartFrame [(7, 8, 9), (10, 11, 12)]
      (.other "BOGUS") .cart).map columns = some projectedSchema := by
  obtain ⟨out, happ, hcols⟩ := C4_non_geog_cart_target_takes_projected_branch
    sampleCartFrame [(7, 8, 9), (10, 11, 12)] .cart "BOGUS"
    (by intro n hn; fin_cases hn <;> decide)
    (by intro n hn; fin_cases hn <;> decide)
    (by decide)
  rw [happ]
  simp [hcols]

/-! ## Claim C2 -/

/-- C2: for every well-formed DMS string of shape
hemisphere-letter, degrees, degree sign, space, minutes, single quote,
space, seconds, double quote (built by `mkDms`) whose three numeric parts
parse as numerals, `dms_to_decimal` returns
degrees + minutes/60 + seconds/3600, negated exactly when the hemisphere
letter is S or W. -/
theorem C2_dms_to_decimal_formula (h : Char) (dS mS sS : List Char) (d m s : ℚ)
    (hd : parseFloatC dS = some d) (hm : parseFloatC mS = some m)
    (hs : parseFloatC sS = some s) :
    dms_to_decimal (mkDms h dS mS sS) =
      some (if h = 'S' ∨ h = 'W' then -(d + m / 60 + s / 3600)
        else d + m / 60 + s / 3600) := by
  have hdC := parseFloatC_chars dS d hd
  have hmC := parseFloatC_chars mS m hm
  have hsC := parseFloatC_chars sS s hs
  have hA : ∀ c ∈ dS ++ [degreeChar, ' '] ++ mS ++ [minuteChar, ' '] ++ sS,
      (c != quoteChar) = true := by
    intro c hc
    simp only [List.mem_append, List.mem_cons, List.not_mem_nil, or_false] at hc
    rcases hc with (((hc | (rfl | rfl)) | hc) | (rfl | rfl)) | hc
    · exact bne_iff_ne.mpr (floatChar_ne_delims c (hdC c hc)).2.2
    · decide
    · decide
    · exact bne_iff_ne.mpr (floatChar_ne_delims c (hmC c hc)).2.2
    · decide
    · decide
    · exact bne_iff_ne.mpr (floatChar_ne_delims c (hsC c hc)).2.2
  have hfilter : (dS ++ [degreeChar, ' '] ++ mS ++ [minuteChar, ' '] ++ sS
      ++ [quoteChar]).filter (fun c => c != quoteChar) =
      dS ++ [degreeChar, ' '] ++ mS ++ [minuteChar, ' '] ++ sS := by
    rw [List.filter_append, List.filter_eq_self.mpr hA]
    simp
  have hdD : ∀ c ∈ dS, c ≠ degreeChar := fun c hc =>
    (floatChar_ne_delims c (hdC c hc)).1
  have hXD : ∀ c ∈ mS ++ [minuteChar, ' '] ++ sS, c ≠ degreeChar := by
    intro c hc
    simp only [List.mem_append, List.mem_cons, List.not_mem_nil, or_false] at hc
    rcases hc with (hc | (rfl | rfl)) | hc
    · exact (floatChar_ne_delims c (hmC c hc)).1
    · decide
    · decide
    · exact (floatChar_ne_delims c (hsC c hc)).1
  have hmM : ∀ c ∈ mS, c ≠ minuteChar := fun c hc =>
    (floatChar_ne_delims c (hmC c hc)).2.1
  have hsM : ∀ c ∈ sS, c ≠ minuteChar := fun c hc =>
    (floatChar_ne_delims c (hsC c hc)).2.1
  have hsplitA : splitOnSub [degreeChar, ' ']
      (dS ++ [degreeChar, ' '] ++ mS ++ [minuteChar, ' '] ++ sS) =
      [dS, mS ++ [minuteChar, ' '] ++ sS] := by
    show splitGo degreeChar [' ']
      (dS ++ [degreeChar, ' '] ++ mS ++ [minuteChar, ' '] ++ sS) = _
    rw [show dS ++ [degreeChar, ' '] ++ mS ++ [minuteChar, ' '] ++ sS =
        dS ++ degreeChar :: ([' '] ++ (mS ++ [minuteChar, ' '] ++ sS)) from by
      simp [List.append_assoc]]
    rw [splitGo_append_sep degreeChar [' '] (mS ++ [minuteChar, ' '] ++ sS) dS hdD]
    rw [splitGo_of_ne degreeChar [' '] _ hXD]
  have hsplitX : splitOnSub [minuteChar, ' '] (mS ++ [minuteChar, ' '] ++ sS) =
      [mS, sS] := by
    show splitGo minuteChar [' '] (mS ++ [minuteChar, ' '] ++ sS) = _
    rw [show mS ++ [minuteChar, ' '] ++ sS =
        mS ++ minuteChar :: ([' '] ++ sS) from by simp [List.append_assoc]]
    rw [splitGo_append_sep minuteChar [' '] sS mS hmM]
    rw [splitGo_of_ne minuteChar [' '] sS hsM]
  have hS1 : dmsSplit1 (dS ++ [degreeChar, ' '] ++ mS ++ [minuteChar, ' '] ++ sS) =
      some (dS, mS ++ [minuteChar, ' '] ++ sS) := by
    unfold dmsSplit1
    rw [hsplitA]
  have hMS : dmsMinSec (mS ++ [minuteChar, ' '] ++ sS) = some (m, s) := by
    unfold dmsMinSec
    rw [hsplitX]
    show (parseFloatC mS).bind (fun minutes =>
      (parseFloatC sS).bind fun seconds => some (minutes, seconds)) = some (m, s)
    rw [hm, hs]
    rfl
  show dms_to_decimal ⟨h :: (dS ++ [degreeChar, ' '] ++ mS ++ [minuteChar, ' ']
    ++ sS ++ [quoteChar])⟩ = _
  rw [dms_to_decimal_cons, hfilter, hS1]
  show (parseFloatC dS).bind (fun degrees =>
    (dmsMinSec (mS ++ [minuteChar, ' '] ++ sS)).bind fun ms =>
      some (if h = 'S' ∨ h = 'W' then -(degrees + ms.1 / 60 + ms.2 / 3600)
        else degrees + ms.1 / 60 + ms.2 / 3600)) = _
  rw [hd, hMS]
  rfl

/-- Witness for C2 at the N 52 30 45 example of the claim: the value is
52.5125 = 4201/80 (and the W 123 15 30 example gives the negated sum). -/
theorem C2_dms_to_decimal_formula_witness :
    dms_to_decimal (mkDms 'N' "52".data "30".data "45".data) = some (4201 / 80) ∧
    dms_to_decimal (mkDms 'W' "123".data "15".data "30".data) =
      some (-(123 + 15 / 60 + 30 / 3600)) := by
  constructor
  · have h := C2_dms_to_decimal_formula 'N' "52".data "30".data "45".data 52 30 45
      (by decide) (by decide) (by decide)
    rw [h, if_neg (by decide)]
    norm_num
  · have h := C2_dms_to_decimal_formula 'W' "123".data "15".data "30".data 123 15 30
      (by decide) (by decide) (by decide)
    rw [h, if_pos (by decide)]

/-! ## Claim C9 -/

/-- C9: malformed DMS input fails and the failure aborts the whole run.
Three parts: (1) any string without the degree delimiter anywhere makes
`dms_to_decimal` fail (Python IndexError on `parts[1]`); (2) a string of
the right shape whose degrees part is not numeric fails (Python
ValueError from `float`); (3) a latitude column containing any failing
value makes the whole `transform_coordinates` run abort with the parse
error, before any output is produced, whatever the other arguments. -/
theorem C9_malformed_dms_aborts :
    (∀ s : String, degreeChar ∉ s.data → dms_to_decimal s = none) ∧
    (∀ (h : Char) (dS mS sS : List Char),
      (∀ c ∈ dS ++ mS ++ sS, c ≠ degreeChar ∧ c ≠ minuteChar ∧ c ≠ quoteChar) →
      parseFloatC dS = none →
      dms_to_decimal (mkDms h dS mS sS) = none) ∧
    (∀ (df : DataFrame) (l : List String) (lonC : ColData)
      (ext : List (ℚ × ℚ × ℚ) → List (ℚ × ℚ × ℚ)) (target : CoordType)
      (st : Bool),
      getCol df latCol = some (.strs l) → getCol df lonCol = some lonC →
      (∃ x ∈ l, dms_to_decimal x = none) →
      transform_coordinates ext target df (some .dms) st = .error .parseError) := by
  refine ⟨?_, ?_, ?_⟩
  · intro s hdeg
    obtain ⟨l⟩ := s
    cases l with
    | nil => rfl
    | cons d rest =>
      rw [dms_to_decimal_cons]
      have hne : ∀ c ∈ rest.filter (fun c => c != quoteChar), c ≠ degreeChar := by
        intro c hc heq
        subst heq
        exact hdeg (List.mem_cons_of_mem d (List.mem_filter.mp hc).1)
      have hsp : dmsSplit1 (rest.filter (fun c => c != quoteChar)) = none := by
        unfold dmsSplit1
        rw [show splitOnSub [degreeChar, ' '] (rest.filter (fun c => c != quoteChar))
            = [rest.filter (fun c => c != quoteChar)] from
          splitGo_of_ne degreeChar [' '] _ hne]
      rw [hsp]
      rfl
  · intro h dS mS sS hch hdnone
    have hdl : ∀ c ∈ dS, c ≠ degreeChar ∧ c ≠ minuteChar ∧ c ≠ quoteChar :=
      fun c hc => hch c (by simp [hc])
    have hml : ∀ c ∈ mS, c ≠ degreeChar ∧ c ≠ minuteChar ∧ c ≠ quoteChar :=
      fun c hc => hch c (by simp [hc])
    have hsl : ∀ c ∈ sS, c ≠ degreeChar ∧ c ≠ minuteChar ∧ c ≠ quoteChar :=
      fun c hc => hch c (by simp [hc])
    have hA : ∀ c ∈ dS ++ [degreeChar, ' '] ++ mS ++ [minuteChar, ' '] ++ sS,
        (c != quoteChar) = true := by
      intro c hc
      simp only [List.mem_append, List.mem_cons, List.not_mem_nil, or_false] at hc
      rcases hc with (((hc | (rfl | rfl)) | hc) | (rfl | rfl)) | hc
      · exact bne_iff_ne.mpr (hdl c hc).2.2
      · decide
      · decide
      · exact bne_iff_ne.mpr (hml c hc).2.2
      · decide
      · decide
      · exact bne_iff_ne.mpr (hsl c hc).2.2
    have hfilter : (dS ++ [degreeChar, ' '] ++ mS ++ [minuteChar, ' '] ++ sS
        ++ [quoteChar]).filter (fun c => c != quoteChar) =
        dS ++ [degreeChar, ' '] ++ mS ++ [minuteChar, ' '] ++ sS := by
      rw [List.filter_append, List.filter_eq_self.mpr hA]
      simp
    have hXD : ∀ c ∈ mS ++ [minuteChar, ' '] ++ sS, c ≠ degreeChar := by
      intro c hc
      simp only [List.mem_append, List.mem_cons, List.not_mem_nil, or_false] at hc
      rcases hc with (hc | (rfl | rfl)) | hc
      · exact (hml c hc).1
      · decide
      · decide
      · exact (hsl c hc).1
    have hsplitA : splitOnSub [degreeChar, ' ']
        (dS ++ [degreeChar, ' '] ++ mS ++ [minuteChar, ' '] ++ sS) =
        [dS, mS ++ [minuteChar, ' '] ++ sS] := by
      show splitGo degreeChar [' ']
        (dS ++ [degreeChar, ' '] ++ mS ++ [minuteChar, ' '] ++ sS) = _
      rw [show dS ++ [degreeChar, ' '] ++ mS ++ [minuteChar, ' '] ++ sS =
          dS ++ degreeChar :: ([' '] ++ (mS ++ [minuteChar, ' '] ++ sS)) from by
        simp [List.append_assoc]]
      rw [splitGo_append_sep degreeChar [' '] (mS ++ [minuteChar, ' '] ++ sS) dS
        (fun c hc => (hdl c hc).1)]
      rw [splitGo_of_ne degreeChar [' '] _ hXD]
    have hS1 : dmsSplit1 (dS ++ [degreeChar, ' '] ++ mS ++ [minuteChar, ' '] ++ sS) =
        some (dS, mS ++ [minuteChar, ' '] ++ sS) := by
      unfold dmsSplit1
      rw [hsplitA]
    show dms_to_decimal ⟨h :: (dS ++ [degreeChar, ' '] ++ mS ++ [minuteChar, ' ']
      ++ sS ++ [quoteChar])⟩ = _
    rw [dms_to_decimal_cons, hfilter, hS1]
    show (parseFloatC dS).bind (fun degrees =>
      (dmsMinSec (mS ++ [minuteChar, ' '] ++ sS)).bind fun ms =>
        some (if h = 'S' ∨ h = 'W' then -(degrees + ms.1 / 60 + ms.2 / 3600)
          else degrees + ms.1 / 60 + ms.2 / 3600)) = _
    rw [hdnone]
    rfl
  · intro df l lonC ext target st hlat hlon hbad
    have hconv : convertDmsCol (.strs l) = none := by
      show (mapElems dms_to_decimal l).map ColData.nums = none
      rw [mapElems_eq_none dms_to_decimal l hbad]
      rfl
    have hpre : preprocess_dataframe df .dms = .error .parseError := by
      unfold preprocess_dataframe
      rw [if_pos rfl, hlat, hlon]
      simp only [hconv]
      rfl
    unfold transform_coordinates
    simp only [Option.getD_some]
    rw [hpre]
    rfl

/-- Witness for C9: part 1 at a string with no degree sign, part 2 at a
non-numeric degrees part, part 3 at a one-row frame whose latitude value
has no delimiters; the run errors with the parse error for every external
transform (here the identity). -/
theorem C9_malformed_dms_aborts_witness :
    dms_to_decimal "1230 45" = none ∧
    dms_to_decimal (mkDms 'N' "ab".data "30".data "45".data) = none ∧
    transform_coordinates (fun c => c) .GEOG
      [(latCol, .strs ["bad"]), (lonCol, .strs ["W1"])]
      (some .dms) true = .error .parseError := by
  refine ⟨?_, ?_, ?_⟩
  · exact C9_malformed_dms_aborts.1 "1230 45" (by decide)
  · exact C9_malformed_dms_aborts.2.1 'N' "ab".data "30".data "45".data
      (by decide) (by decide)
  · exact C9_malformed_dms_aborts.2.2
      [(latCol, .strs ["bad"]), (lonCol, .strs ["W1"])] ["bad"] (.strs ["W1"])
      (fun c => c) .GEOG true (by decide) (by decide) (by decide)

/-! ## Claim C6 -/

theorem two_le_splitGo_length_of_contains (s0 : Char) (st : List Char) :
    ∀ l : List Char, ContainsSub (s0 :: st) l → 2 ≤ (splitGo s0 st l).length := by
  intro l
  induction l with
  | nil =>
    rintro ⟨a, b, hab⟩
    exact absurd (congrArg List.length hab) (by simp; omega)
  | cons c rest ih =>
    rintro ⟨a, b, hab⟩
    rw [splitGo_cons]
    by_cases hp : (s0 :: st).isPrefixOf (c :: rest)
    · rw [if_pos hp]
      have := splitGo_ne_nil s0 st (rest.drop st.length)
      cases hsp : splitGo s0 st (rest.drop st.length) with
      | nil => exact absurd hsp this
      | cons p t => simp
    · rw [if_neg hp]
      have hcont : ContainsSub (s0 :: st) rest := by
        cases a with
        | nil =>
          exfalso
          apply hp
          rw [show c :: rest = (s0 :: st) ++ b from by simpa using hab]
          exact isPrefixOf_self_append (s0 :: st) b
        | cons a0 a' =>
          simp only [List.cons_append, List.cons.injEq] at hab
          exact ⟨a', b, hab.2⟩
      have h2 := ih hcont
      cases hsp : splitGo s0 st rest with
      | nil => exact absurd hsp (splitGo_ne_nil s0 st rest)
      | cons p t =>
        rw [hsp] at h2
        simp at h2 ⊢
        omega

/-- C6 counterexample: on a filename with two occurrences of the
substring, the code (polars replace_all) rewrites both, while the claim
as stated (first occurrence only, `replaceFirstSub`) keeps the second;
the two results differ. -/
theorem C6_filename_first_occurrence_cex :
    deriveRGBI "a.iiq.iiq" = "a_rgbi.tif_rgbi.tif" ∧
    (⟨replaceFirstSub iiqSub "_rgbi.tif".data "a.iiq.iiq".data⟩ : String) =
      "a_rgbi.tif.iiq" ∧
    deriveRGBI "a.iiq.iiq" ≠
      (⟨replaceFirstSub iiqSub "_rgbi.tif".data "a.iiq.iiq".data⟩ : String) :=
  ⟨by decide, by decide, by decide⟩

/-- C6 amended: the derivation replaces every occurrence of the
substring; on filenames with at most one occurrence (the expected case)
this coincides with replacing the first occurrence, and filenames not
containing the substring come back unchanged for both outputs, with no
error. -/
theorem C6_filename_replace_all (fn : String) :
    (¬ ContainsSub iiqSub fn.data → deriveRGBI fn = fn ∧ deriveRGB fn = fn) ∧
    ((splitOnSub iiqSub fn.data).length ≤ 2 →
      deriveRGBI fn = ⟨replaceFirstSub iiqSub "_rgbi.tif".data fn.data⟩ ∧
      deriveRGB fn = ⟨replaceFirstSub iiqSub "_cal.tif".data fn.data⟩) := by
  constructor
  · intro hnc
    have h1 : splitOnSub iiqSub fn.data = [fn.data] :=
      not_containsSub_of_splitGo_cons '.' "iiq".data fn.data hnc
    constructor
    · show (⟨joinWith "_rgbi.tif".data (splitOnSub iiqSub fn.data)⟩ : String) = fn
      rw [h1]
      rfl
    · show (⟨joinWith "_cal.tif".data (splitOnSub iiqSub fn.data)⟩ : String) = fn
      rw [h1]
      rfl
  · intro hlen
    exact ⟨congrArg (fun l => (⟨l⟩ : String))
        (replaceAll_eq_replaceFirst '.' "iiq".data "_rgbi.tif".data fn.data hlen),
      congrArg (fun l => (⟨l⟩ : String))
        (replaceAll_eq_replaceFirst '.' "iiq".data "_cal.tif".data fn.data hlen)⟩

/-- Witness for C6 amended: the claim example img1.iiq maps to
img1_rgbi.tif and img1_cal.tif, and a filename without the substring is
returned unchanged. -/
theorem C6_filename_replace_all_witness :
    deriveRGBI "img1.iiq" = "img1_rgbi.tif" ∧
    deriveRGB "img1.iiq" = "img1_cal.tif" ∧
    deriveRGBI "photo.tif" = "photo.tif" := by
  have h2 := (C6_filename_replace_all "img1.iiq").2 (by decide)
  have h1 := (C6_filename_replace_all "photo.tif").1
    (fun hcs => absurd (two_le_splitGo_length_of_contains '.' "iiq".data
      "photo.tif".data hcs) (by decide))
  exact ⟨h2.1.trans (by decide), h2.2.trans (by decide), h1.1⟩

/-! ## Claim C5 -/

/-- C5: detection is a total function of the frame (no failure path in
the definition) applying an ordered first-match rule: all three cartesian
columns present gives cart whatever else the frame holds, including any
latitude column; otherwise a latitude column that exists, has string
dtype and has some value containing the degree sign gives dms; otherwise
dd. -/
theorem C5_detect_coord_type_first_match (df : DataFrame) :
    ((hasCol df xCol && hasCol df yCol && hasCol df zCol) = true →
      detect_coord_type df = .cart) ∧
    ((hasCol df xCol && hasCol df yCol && hasCol df zCol) = false →
      ∀ l, getCol df latCol = some (.strs l) → (∃ v ∈ l, degreeChar ∈ v.data) →
        detect_coord_type df = .dms) ∧
    ((hasCol df xCol && hasCol df yCol && hasCol df zCol) = false →
      (∀ l, getCol df latCol = some (.strs l) → ∀ v ∈ l, degreeChar ∉ v.data) →
        detect_coord_type df = .dd) := by
  refine ⟨?_, ?_, ?_⟩
  · intro hcart
    unfold detect_coord_type
    rw [if_pos hcart]
  · intro hcart l hlat ⟨v, hv, hdeg⟩
    unfold detect_coord_type
    rw [if_neg (by simp [hcart]), hlat]
    rw [if_pos (List.any_eq_true.mpr ⟨v, hv, by simpa using hdeg⟩)]
  · intro hcart hno
    unfold detect_coord_type
    rw [if_neg (by simp [hcart])]
    cases hg : getCol df latCol with
    | none => rfl
    | some c =>
      cases c with
      | strs l =>
        have hfalse : (l.any fun s => s.data.contains degreeChar) = false := by
          cases hany : l.any fun s => s.data.contains degreeChar with
          | false => rfl
          | true =>
            obtain ⟨v, hv, hcv⟩ := List.any_eq_true.mp hany
            exact absurd (by simpa using hcv) (hno l hg v hv)
        show (if (l.any fun s => s.data.contains degreeChar) = true
          then InputCoordType.dms else InputCoordType.dd) = InputCoordType.dd
        simp only [hfalse]
        rfl
      | nums l => rfl
      | triples l => rfl

/-- Witness for C5: a frame with the cartesian triple and a textual
degree-marked latitude column still detects cart; a frame with only that
latitude column detects dms; a numeric latitude column detects dd. -/
theorem C5_detect_coord_type_first_match_witness :
    detect_coord_type [(xCol, .nums [1]), (yCol, .nums [2]), (zCol, .nums [3]),
      (latCol, .strs ["N52°"])] = .cart ∧
    detect_coord_type [(latCol, .strs ["N52°"]), (lonCol, .strs ["W123°"])] = .dms ∧
    detect_coord_type [(latCol, .nums [52]), (lonCol, .nums [-123])] = .dd := by
  refine ⟨?_, ?_, ?_⟩
  · exact (C5_detect_coord_type_first_match _).1 (by decide)
  · exact (C5_detect_coord_type_first_match _).2.1 (by decide) ["N52°"] (by decide)
      ⟨"N52°", by decide, by decide⟩
  · exact (C5_detect_coord_type_first_match _).2.2 (by decide)
      (fun l hl => by simp [getCol] at hl)

/-! ## Claim C8 -/

theorem getElem?_zip_eq {α β : Type} (x : α) (y : β) :
    ∀ (xs : List α) (ys : List β) (i : Nat), xs[i]? = some x → ys[i]? = some y →
      (xs.zip ys)[i]? = some (x, y) := by
  intro xs
  induction xs with
  | nil => intro ys i hx _; simp at hx
  | cons a xs ih =>
    intro ys i hx hy
    cases ys with
    | nil => simp at hy
    | cons b ys =>
      cases i with
      | zero =>
        simp only [List.getElem?_cons_zero, Option.some.injEq] at hx hy
        simp [List.zip_cons_cons, hx, hy]
      | succ j =>
        simp only [List.getElem?_cons_succ] at hx hy
        simpa [List.zip_cons_cons] using ih ys j hx hy

/-- C8: triples handed to the external transform are extracted row by
row in its required order: geographic input (dms or dd) yields
(longitude, latitude, altitude) with longitude first, cartesian input
yields (X, Y, Z). -/
theorem C8_extract_coordinates_order (df : DataFrame) :
    (∀ ct, ct ≠ InputCoordType.cart →
      ∀ lons lats alts, getNums df lonCol = some lons →
        getNums df latCol = some lats → getNums df altCol = some alts →
        ∃ tr, extract_coordinates df ct = some tr ∧
          ∀ (i : Nat) (lo la al : ℚ), lons[i]? = some lo → lats[i]? = some la →
            alts[i]? = some al → tr[i]? = some (lo, la, al)) ∧
    (∀ xs ys zs, getNums df xCol = some xs → getNums df yCol = some ys →
      getNums df zCol = some zs →
      ∃ tr, extract_coordinates df .cart = some tr ∧
        ∀ (i : Nat) (x y z : ℚ), xs[i]? = some x → ys[i]? = some y →
          zs[i]? = some z → tr[i]? = some (x, y, z)) := by
  constructor
  · intro ct hct lons lats alts hlon hlat halt
    refine ⟨lons.zip (lats.zip alts), ?_, ?_⟩
    · cases ct with
      | cart => exact absurd rfl hct
      | dms =>
        show (match getNums df lonCol, getNums df latCol, getNums df altCol with
          | some lons, some lats, some alts => some (lons.zip (lats.zip alts))
          | _, _, _ => none) = _
        rw [hlon, hlat, halt]
      | dd =>
        show (match getNums df lonCol, getNums df latCol, getNums df altCol with
          | some lons, some lats, some alts => some (lons.zip (lats.zip alts))
          | _, _, _ => none) = _
        rw [hlon, hlat, halt]
    · intro i lo la al hlo hla hal
      exact getElem?_zip_eq lo (la, al) lons (lats.zip alts) i hlo
        (getElem?_zip_eq la al lats alts i hla hal)
  · intro xs ys zs hx hy hz
    refine ⟨xs.zip (ys.zip zs), ?_, ?_⟩
    · show (match getNums df xCol, getNums df yCol, getNums df zCol with
        | some xs, some ys, some zs => some (xs.zip (ys.zip zs))
        | _, _, _ => none) = _
      rw [hx, hy, hz]
    · intro i x y z hxi hyi hzi
      exact getElem?_zip_eq x (y, z) xs (ys.zip zs) i hxi
        (getElem?_zip_eq y z ys zs i hyi hzi)

/-- Witness for C8 on a two-row frame carrying both geographic and
cartesian columns: row 0 extracts as (lon, lat, alt) for dd and as
(X, Y, Z) for cart. -/
theorem C8_extract_coordinates_order_witness :
    ((extract_coordinates [(lonCol, .nums [-123, -124]), (latCol, .nums [52, 53]),
        (altCol, .nums [100, 150]), (xCol, .nums [1, 2]), (yCol, .nums [3, 4]),
        (zCol, .nums [5, 6])] .dd).bind fun tr => tr[0]?) =
      some ((-123 : ℚ), (52 : ℚ), (100 : ℚ)) ∧
    ((extract_coordinates [(lonCol, .nums [-123, -124]), (latCol, .nums [52, 53]),
        (altCol, .nums [100, 150]), (xCol, .nums [1, 2]), (yCol, .nums [3, 4]),
        (zCol, .nums [5, 6])] .cart).bind fun tr => tr[0]?) =
      some ((1 : ℚ), (3 : ℚ), (5 : ℚ)) := by
  constructor
  · obtain ⟨tr, htr, hidx⟩ := (C8_extract_coordinates_order
      [(lonCol, .nums [-123, -124]), (latCol, .nums [52, 53]),
        (altCol, .nums [100, 150]), (xCol, .nums [1, 2]), (yCol, .nums [3, 4]),
        (zCol, .nums [5, 6])]).1 .dd (by decide) [-123, -124] [52, 53] [100, 150]
      (by decide) (by decide) (by decide)
    rw [htr]
    show tr[0]? = some ((-123 : ℚ), (52 : ℚ), (100 : ℚ))
    exact hidx 0 (-123) 52 100 (by decide) (by decide) (by decide)
  · obtain ⟨tr, htr, hidx⟩ := (C8_extract_coordinates_order
      [(lonCol, .nums [-123, -124]), (latCol, .nums [52, 53]),
        (altCol, .nums [100, 150]), (xCol, .nums [1, 2]), (yCol, .nums [3, 4]),
        (zCol, .nums [5, 6])]).2 [1, 2] [3, 4] [5, 6]
      (by decide) (by decide) (by decide)
    rw [htr]
    show tr[0]? = some ((1 : ℚ), (3 : ℚ), (5 : ℚ))
    exact hidx 0 1 3 5 (by decide) (by decide) (by decide)

/-! ## Claim C7 -/

theorem exceptBind_pure {e a b : Type} (x : a) (f : a → Except e b) :
    (pure x : Except e a) >>= f = f x := rfl

/-- C7: with the transform flag off, the returned frame differs from the
input only in the two appended filename columns and, for dms input, the
latitude/longitude columns converted to decimal degrees: every other
column keeps its values (hence its row order — columns are stored as
row-ordered lists), and the column list is the input list plus the two
new names. -/
theorem C7_no_transform_frame_effect
    (ext : List (ℚ × ℚ × ℚ) → List (ℚ × ℚ × ℚ)) (target : CoordType)
    (df : DataFrame) (fns : List String)
    (hfn : getCol df "Filename" = some (.strs fns))
    (hrgbi : hasCol df "RGBI_Filename" = false)
    (hrgb : hasCol df "RGB_Filename" = false) :
    (∀ ct, ct ≠ InputCoordType.dms →
      ∃ out, transform_coordinates ext target df (some ct) false = .ok out ∧
        columns out = columns df ++ ["RGBI_Filename", "RGB_Filename"] ∧
        (∀ n, n ≠ "RGBI_Filename" → n ≠ "RGB_Filename" →
          getCol out n = getCol df n) ∧
        getCol out "RGBI_Filename" = some (.strs (fns.map deriveRGBI)) ∧
        getCol out "RGB_Filename" = some (.strs (fns.map deriveRGB))) ∧
    (∀ ll gg ll' gg',
      getCol df latCol = some (.strs ll) → getCol df lonCol = some (.strs gg) →
      mapElems dms_to_decimal ll = some ll' →
      mapElems dms_to_decimal gg = some gg' →
      ∃ out, transform_coordinates ext target df (some .dms) false = .ok out ∧
        columns out = columns df ++ ["RGBI_Filename", "RGB_Filename"] ∧
        (∀ n, n ≠ latCol → n ≠ lonCol → n ≠ "RGBI_Filename" →
          n ≠ "RGB_Filename" → getCol out n = getCol df n) ∧
        getCol out latCol = some (.nums ll') ∧
        getCol out lonCol = some (.nums gg') ∧
        getCol out "RGBI_Filename" = some (.strs (fns.map deriveRGBI)) ∧
        getCol out "RGB_Filename" = some (.strs (fns.map deriveRGB))) := by
  have hrgb1 : ∀ c : ColData,
      hasCol (setCol df "RGBI_Filename" c) "RGB_Filename" = false := by
    intro c
    rw [hasCol_setCol, hrgb]
    rfl
  constructor
  · intro ct hct
    have hpre : preprocess_dataframe df ct =
        .ok (setCol (setCol df "RGBI_Filename" (.strs (fns.map deriveRGBI)))
          "RGB_Filename" (.strs (fns.map deriveRGB))) := by
      unfold preprocess_dataframe
      rw [if_neg hct, exceptBind_pure]
      simp only [hfn]
      rfl
    refine ⟨setCol (setCol df "RGBI_Filename" (.strs (fns.map deriveRGBI)))
      "RGB_Filename" (.strs (fns.map deriveRGB)), ?_, ?_, ?_, ?_, ?_⟩
    · unfold transform_coordinates
      simp only [Option.getD_some]
      rw [hpre]
      rfl
    · rw [columns_setCol_absent _ _ _ (hrgb1 _),
        columns_setCol_absent _ _ _ hrgbi, List.append_assoc]
      rfl
    · intro n hn1 hn2
      rw [getCol_setCol, if_neg hn2, getCol_setCol, if_neg hn1]
    · rw [getCol_setCol, if_neg (by decide), getCol_setCol, if_pos rfl]
    · rw [getCol_setCol, if_pos rfl]
  · intro ll gg ll' gg' hlat hlon hll hgg
    have hconvlat : convertDmsCol (.strs ll) = some (.nums ll') := by
      show (mapElems dms_to_decimal ll).map ColData.nums = some (.nums ll')
      rw [hll]
      rfl
    have hconvlon : convertDmsCol (.strs gg) = some (.nums gg') := by
      show (mapElems dms_to_decimal gg).map ColData.nums = some (.nums gg')
      rw [hgg]
      rfl
    have hfn1 : getCol (setCol (setCol df latCol (ColData.nums ll'))
        lonCol (ColData.nums gg')) "Filename" = some (.strs fns) := by
      rw [getCol_setCol, if_neg (by decide), getCol_setCol, if_neg (by decide), hfn]
    have hpre : preprocess_dataframe df .dms =
        .ok (setCol (setCol (setCol (setCol df latCol (ColData.nums ll'))
            lonCol (ColData.nums gg'))
          "RGBI_Filename" (.strs (fns.map deriveRGBI)))
          "RGB_Filename" (.strs (fns.map deriveRGB))) := by
      unfold preprocess_dataframe
      rw [if_pos rfl, hlat, hlon]
      simp only [hconvlat, hconvlon]
      rw [exceptBind_pure]
      simp only [hfn1]
      rfl
    have hlatpresent : hasCol df latCol = true := by
      unfold hasCol
      rw [hlat]
      rfl
    have hlonpresent : hasCol (setCol df latCol (ColData.nums ll')) lonCol = true := by
      rw [hasCol_setCol]
      unfold hasCol
      rw [hlon]
      simp
    have hrgbi1 : hasCol (setCol (setCol df latCol (ColData.nums ll'))
        lonCol (ColData.nums gg')) "RGBI_Filename" = false := by
      rw [hasCol_setCol, hasCol_setCol, hrgbi]
      rfl
    have hrgb2 : hasCol (setCol (setCol (setCol df latCol (ColData.nums ll'))
        lonCol (ColData.nums gg')) "RGBI_Filename"
          (ColData.strs (fns.map deriveRGBI))) "RGB_Filename" = false := by
      rw [hasCol_setCol, hasCol_setCol, hasCol_setCol, hrgb]
      rfl
    refine ⟨setCol (setCol (setCol (setCol df latCol (ColData.nums ll'))
        lonCol (ColData.nums gg'))
      "RGBI_Filename" (.strs (fns.map deriveRGBI)))
      "RGB_Filename" (.strs (fns.map deriveRGB)), ?_, ?_, ?_, ?_, ?_, ?_, ?_⟩
    · unfold transform_coordinates
      simp only [Option.getD_some]
      rw [hpre]
      rfl
    · rw [columns_setCol_absent _ _ _ hrgb2, columns_setCol_absent _ _ _ hrgbi1,
        columns_setCol_present _ _ _ hlonpresent,
        columns_setCol_present _ _ _ hlatpresent, List.append_assoc]
      rfl
    · intro n hn1 hn2 hn3 hn4
      rw [getCol_setCol, if_neg hn4, getCol_setCol, if_neg hn3,
        getCol_setCol, if_neg hn2, getCol_setCol, if_neg hn1]
    · rw [getCol_setCol, if_neg (by decide), getCol_setCol, if_neg (by decide),
        getCol_setCol, if_neg (by decide), getCol_setCol, if_pos rfl]
    · rw [getCol_setCol, if_neg (by decide), getCol_setCol, if_neg (by decide),
        getCol_setCol, if_pos rfl]
    · rw [getCol_setCol, if_neg (by decide), getCol_setCol, if_pos rfl]
    · rw [getCol_setCol, if_pos rfl]

/-- Witness for C7 on a one-row dd frame: the run with the flag off
succeeds, appends the two filename columns and keeps the others. -/
theorem C7_no_transform_frame_effect_witness :
    ∃ out, transform_coordinates (fun c => c) .GEOG
      [("Timestamp", .strs ["t1"]), ("Filename", .strs ["img1.iiq"]),
       (latCol, .nums [52]), (lonCol, .nums [-123]), (altCol, .nums [100])]
      (some .dd) false = .ok out ∧
      columns out = ["Timestamp", "Filename", latCol, lonCol, altCol,
        "RGBI_Filename", "RGB_Filename"] ∧
      getCol out "RGBI_Filename" = some (.strs ["img1_rgbi.tif"]) := by
  obtain ⟨out, hok, hcols, _, hrgbi, _⟩ :=
    (C7_no_transform_frame_effect (fun c => c) .GEOG
      [("Timestamp", .strs ["t1"]), ("Filename", .strs ["img1.iiq"]),
       (latCol, .nums [52]), (lonCol, .nums [-123]), (altCol, .nums [100])]
      ["img1.iiq"] (by decide) (by decide) (by decide)).1 .dd (by decide)
  refine ⟨out, hok, ?_, ?_⟩
  · rw [hcols]
    decide
  · rw [hrgbi]
    decide

/-! ## Claim C10 -/

/-- C10: a zero-row frame with the geographic columns present runs the
whole preprocessing, but with the transform flag on the run aborts with
the empty-coordinates validation error of `CoordinateData` before the
external transform is ever invoked (the error holds for every external
transform `ext`); with the flag off the same call succeeds and returns
the preprocessed empty frame. -/
theorem C10_empty_dataset_validation (df : DataFrame)
    (hfn : getCol df "Filename" = some (.strs []))
    (hlon : getCol df lonCol = some (.nums []))
    (hlat : getCol df latCol = some (.nums []))
    (halt : getCol df altCol = some (.nums [])) :
    (∀ (ext : List (ℚ × ℚ × ℚ) → List (ℚ × ℚ × ℚ)) (target : CoordType),
      transform_coordinates ext target df (some .dd) true =
        .error .emptyCoordinates) ∧
    (∀ (ext : List (ℚ × ℚ × ℚ) → List (ℚ × ℚ × ℚ)) (target : CoordType),
      ∃ out, transform_coordinates ext target df (some .dd) false = .ok out) := by
  have hpre : preprocess_dataframe df .dd =
      .ok (setCol (setCol df "RGBI_Filename" (.strs (List.map deriveRGBI [])))
        "RGB_Filename" (.strs (List.map deriveRGB []))) := by
    unfold preprocess_dataframe
    rw [if_neg (by decide), exceptBind_pure]
    simp only [hfn]
    rfl
  have hlon1 : getCol (setCol (setCol df "RGBI_Filename"
      (ColData.strs (List.map deriveRGBI []))) "RGB_Filename"
      (ColData.strs (List.map deriveRGB []))) lonCol = some (.nums []) := by
    rw [getCol_setCol, if_neg (by decide), getCol_setCol, if_neg (by decide), hlon]
  have hlat1 : getCol (setCol (setCol df "RGBI_Filename"
      (ColData.strs (List.map deriveRGBI []))) "RGB_Filename"
      (ColData.strs (List.map deriveRGB []))) latCol = some (.nums []) := by
    rw [getCol_setCol, if_neg (by decide), getCol_setCol, if_neg (by decide), hlat]
  have halt1 : getCol (setCol (setCol df "RGBI_Filename"
      (ColData.strs (List.map deriveRGBI []))) "RGB_Filename"
      (ColData.strs (List.map deriveRGB []))) altCol = some (.nums []) := by
    rw [getCol_setCol, if_neg (by decide), getCol_setCol, if_neg (by decide), halt]
  have hext : extract_coordinates (setCol (setCol df "RGBI_Filename"
      (ColData.strs (List.map deriveRGBI []))) "RGB_Filename"
      (ColData.strs (List.map deriveRGB []))) .dd = some [] := by
    show (match getNums _ lonCol, getNums _ latCol, getNums _ altCol with
      | some lons, some lats, some alts => some (lons.zip (lats.zip alts))
      | _, _, _ => none) = some []
    rw [show getNums (setCol (setCol df "RGBI_Filename"
        (ColData.strs (List.map deriveRGBI []))) "RGB_Filename"
        (ColData.strs (List.map deriveRGB []))) lonCol = some [] from by
      unfold getNums; rw [hlon1]]
    rw [show getNums (setCol (setCol df "RGBI_Filename"
        (ColData.strs (List.map deriveRGBI []))) "RGB_Filename"
        (ColData.strs (List.map deriveRGB []))) latCol = some [] from by
      unfold getNums; rw [hlat1]]
    rw [show getNums (setCol (setCol df "RGBI_Filename"
        (ColData.strs (List.map deriveRGBI []))) "RGB_Filename"
        (ColData.strs (List.map deriveRGB []))) altCol = some [] from by
      unfold getNums; rw [halt1]]
    rfl
  constructor
  · intro ext target
    unfold transform_coordinates
    simp only [Option.getD_some]
    rw [hpre]
    simp only [exceptBind_ok]
    rw [hext]
    rfl
  · intro ext target
    refine ⟨setCol (setCol df "RGBI_Filename" (.strs (List.map deriveRGBI [])))
      "RGB_Filename" (.strs (List.map deriveRGB [])), ?_⟩
    unfold transform_coordinates
    simp only [Option.getD_some]
    rw [hpre]
    rfl

/-- Witness for C10 on a concrete zero-row geographic frame with the
identity as the external transform. -/
theorem C10_empty_dataset_validation_witness :
    transform_coordinates (fun c => c) .GEOG
      [("Timestamp", .strs []), ("Filename", .strs []), (latCol, .nums []),
       (lonCol, .nums []), (altCol, .nums [])] (some .dd) true =
      .error .emptyCoordinates ∧
    ∃ out, transform_coordinates (fun c => c) .GEOG
      [("Timestamp", .strs []), ("Filename", .strs []), (latCol, .nums []),
       (lonCol, .nums []), (altCol, .nums [])] (some .dd) false = .ok out := by
  constructor
  · exact (C10_empty_dataset_validation _ (by decide) (by decide) (by decide)
      (by decide)).1 (fun c => c) .GEOG
  · exact (C10_empty_dataset_validation _ (by decide) (by decide) (by decide)
      (by decide)).2 (fun c => c) .GEOG

end ACO
